import Mathlib

/-!
Shallow embedding of the RNA-Seq registry (Ensembl/rnaseq-registry).

The data model follows `src/ensembl/rnaseq/registry/database_schema.py`:
five tables (component, organism, dataset, sample, accession) with integer
primary keys and foreign keys.  The registry operations follow
`src/ensembl/rnaseq/registry/api.py` (class `RnaseqRegistry`): each operation
is a function on a `RegistryState` (the committed database), returning the
new committed state and either a value or a Python-level error.

A note on SQLAlchemy constructor semantics, which matters for the dataset
load path: declaratively mapped classes get SQLAlchemy's default
`_declarative_constructor`, which raises `TypeError` for any keyword
argument that is not a mapped attribute of the class.  The attribute lists
of each class (`sampleAttrs`, `datasetAttrs`, ...) are transcribed from
`database_schema.py`; notably `Sample` has no `trim_reads` attribute and
`Dataset` has no `no_spliced` attribute, while `load_datasets` passes both.
-/

/-- Errors raised by the Python code: `ValueError`, `KeyError`, `TypeError`
raised by the SQLAlchemy declarative constructor on an unknown keyword
argument, and `IntegrityError` raised at commit time when a uniqueness
constraint is violated. -/
inductive PyError where
  | valueError (msg : String)
  | keyError (key : String)
  | typeError (msg : String)
  | integrityError
deriving DecidableEq, Repr

/-- Decidable equality for `Except`, so that concrete runs of the embedded
operations can be settled by `decide`. -/
instance {e a : Type} [DecidableEq e] [DecidableEq a] : DecidableEq (Except e a) := fun x y =>
  match x, y with
  | .ok v, .ok w =>
    if h : v = w then .isTrue (congrArg Except.ok h)
    else .isFalse (fun hc => h (Except.ok.inj hc))
  | .error v, .error w =>
    if h : v = w then .isTrue (congrArg Except.error h)
    else .isFalse (fun hc => h (Except.error.inj hc))
  | .ok _, .error _ => .isFalse (fun hc => Except.noConfusion hc)
  | .error _, .ok _ => .isFalse (fun hc => Except.noConfusion hc)

/-- Row of the `component` table: `id` primary key, `name` unique. -/
structure Component where
  id : Nat
  name : String
deriving DecidableEq, Repr

/-- Row of the `organism` table: `id` primary key, `abbrev` unique,
`component_id` foreign key to `component.id`. -/
structure Organism where
  id : Nat
  abbr : String
  component_id : Nat
deriving DecidableEq, Repr

/-- Row of the `dataset` table: `id` primary key, `name`, `release`
(default 0), `retired` (default 0), `latest` (default true), `organism_id`
foreign key to `organism.id`.  A `UniqueConstraint(name, organism_id,
latest, retired)` guards duplicates. -/
structure Dataset where
  id : Nat
  name : String
  release : Int
  retired : Int
  latest : Bool
  organism_id : Nat
deriving DecidableEq, Repr

/-- Row of the `sample` table: `id` primary key, `name`, `dataset_id`
foreign key to `dataset.id`. -/
structure Sample where
  id : Nat
  name : String
  dataset_id : Nat
deriving DecidableEq, Repr

/-- Row of the `accession` table: `id` primary key, `sra_id`, `sample_id`
foreign key to `sample.id`. -/
structure Accession where
  id : Nat
  sra_id : String
  sample_id : Nat
deriving DecidableEq, Repr

/-- The committed database state: the five tables plus an id allocator.
`nextId` models the autoincrement counter: fresh rows receive ids from
`nextId` upward. -/
structure RegistryState where
  components : List Component
  organisms : List Organism
  datasets : List Dataset
  samples : List Sample
  accessions : List Accession
  nextId : Nat
deriving DecidableEq, Repr

/-- Mapped attribute names of the `Sample` class in `database_schema.py`
(columns `id`, `name`, `dataset_id` and relationships `dataset`,
`accessions`).  There is no `trim_reads` attribute. -/
def sampleAttrs : List String := ["id", "name", "dataset_id", "dataset", "accessions"]

/-- Mapped attribute names of the `Dataset` class in `database_schema.py`
(columns `id`, `name`, `release`, `retired`, `latest`, `organism_id` and
relationships `organism`, `samples`).  There is no `no_spliced`
attribute. -/
def datasetAttrs : List String :=
  ["id", "name", "release", "retired", "latest", "organism_id", "organism", "samples"]

/-- SQLAlchemy's `_declarative_constructor` check: the first keyword
argument that is not a mapped attribute of the class, if any — that call
raises `TypeError`. -/
def invalidKwarg (attrs kwargs : List String) : Option String :=
  kwargs.find? (fun k => !(attrs.contains k))

/-! ### Small helpers: Python dict / set and string ordering -/

/-- Python dict assignment `d[k] = v`: overwrite the existing entry for
`k`, or append a new one. -/
def dictInsert (d : List (String × Nat)) (k : String) (v : Nat) : List (String × Nat) :=
  if d.any (fun p => p.1 = k) then
    d.map (fun p => if p.1 = k then (k, v) else p)
  else d ++ [(k, v)]

/-- Python dict lookup `d[k]` / `k in d`. -/
def alookup (k : String) : List (String × Nat) → Option Nat
  | [] => none
  | p :: rest => if p.1 = k then some p.2 else alookup k rest

/-- Nested dict lookup for `cur_datasets[species][name]`. -/
def alookup2 (k : String) : List (String × List (String × Nat)) → Option (List (String × Nat))
  | [] => none
  | p :: rest => if p.1 = k then some p.2 else alookup2 k rest

/-- Nested dict assignment for `cur_datasets[species][name] = v`. -/
def dictInsert2 (d : List (String × List (String × Nat))) (k : String)
    (v : List (String × Nat)) : List (String × List (String × Nat)) :=
  if d.any (fun p => p.1 = k) then
    d.map (fun p => if p.1 = k then (k, v) else p)
  else d ++ [(k, v)]

/-- Strict lexicographic order on character lists, by code point. -/
def charsLt : List Char → List Char → Bool
  | [], [] => false
  | [], _ :: _ => true
  | _ :: _, [] => false
  | a :: as, b :: bs =>
    if a.toNat < b.toNat then true
    else if b.toNat < a.toNat then false
    else charsLt as bs

/-- String comparison used to model SQL `ORDER BY` on text columns. -/
def strLt (a b : String) : Bool := charsLt a.toList b.toList

/-- Insertion into a sorted list (ascending by `le`). -/
def orderedIns {α : Type} (le : α → α → Bool) (a : α) : List α → List α
  | [] => [a]
  | b :: l => if le a b then a :: b :: l else b :: orderedIns le a l

/-- Insertion sort, modelling SQL `ORDER BY`. -/
def sortBy {α : Type} (le : α → α → Bool) : List α → List α
  | [] => []
  | a :: l => orderedIns le a (sortBy le l)

/-! ### Component operations (`api.py`) -/

/-- Expresses `list_components`: all components ordered by name
(`select(Component).order_by(Component.name)`). -/
def list_components (st : RegistryState) : List Component :=
  sortBy (fun a b => strLt a.name b.name || a.name = b.name) st.components

/-- Expresses `add_component`: insert a new component row and commit.  The
unique constraint on `component.name` is checked at commit; a duplicate
name raises `IntegrityError` and the insert is rolled back. -/
def add_component (st : RegistryState) (name : String) :
    Except PyError Component × RegistryState :=
  if st.components.any (fun c => c.name = name) then
    (.error .integrityError, st)
  else
    let row : Component := { id := st.nextId, name := name }
    (.ok row, { st with components := st.components ++ [row], nextId := st.nextId + 1 })

/-- Expresses `get_component`: first row matching the name; if absent,
create it when `create` is set, otherwise raise `ValueError`. -/
def get_component (st : RegistryState) (name : String) (create : Bool) :
    Except PyError Component × RegistryState :=
  match st.components.find? (fun c => c.name = name) with
  | some c => (.ok c, st)
  | none =>
    if create then add_component st name
    else (.error (.valueError ("No component named " ++ name)), st)

/-! ### Organism operations (`api.py`) -/

/-- Expresses `add_organism`: resolve the component by name (a failed
lookup is re-raised as "Cannot add organism for unknown component"), then
insert a new organism row and commit.  The unique constraint on
`organism.abbr` is checked at commit. -/
def add_organism (st : RegistryState) (name : String) (component_name : String) :
    Except PyError Organism × RegistryState :=
  match get_component st component_name false with
  | (.error _, st₁) =>
    (.error (.valueError ("Cannot add organism for unknown component")), st₁)
  | (.ok comp, st₁) =>
    if st₁.organisms.any (fun o => o.abbr = name) then
      (.error .integrityError, st₁)
    else
      let row : Organism := { id := st₁.nextId, abbr := name, component_id := comp.id }
      (.ok row, { st₁ with organisms := st₁.organisms ++ [row], nextId := st₁.nextId + 1 })

/-- Expresses `get_organism`: the first organism row with the given
abbrev (`joinedload` of the component is an eager-loading detail with no
semantic effect here); raises `ValueError` when absent. -/
def get_organism (st : RegistryState) (name : String) : Except PyError Organism :=
  match st.organisms.find? (fun o => o.abbr = name) with
  | some o => .ok o
  | none => .error (.valueError ("No organism named " ++ name))

/-- Python truthiness of an optional string filter (`if component:`) —
`None` and the empty string both skip the filter. -/
def truthy : Option String → Bool
  | none => false
  | some s => !(s = "")

/-- Ordering key of `list_organisms`: `(Component.name, Organism.abbr)`
ascending. -/
def orgPairLE (x y : Organism × Component) : Bool :=
  if x.2.name = y.2.name then strLt x.1.abbr y.1.abbr || x.1.abbr = y.1.abbr
  else strLt x.2.name y.2.name

/-- Expresses `list_organisms`: organisms joined to their component
(`select(Organism).join(Component)`), ordered by component name then
abbrev, optionally filtered by component name, and — when `with_dataset`
is set — restricted to organisms owning at least one dataset row
(`len(org.datasets) > 0`, regardless of latest/retired state). -/
def list_organisms (st : RegistryState) (component : Option String) (with_dataset : Bool) :
    List Organism :=
  let pairs := st.organisms.flatMap (fun o =>
    (st.components.filter (fun c => c.id = o.component_id)).map (fun c => (o, c)))
  let pairs := sortBy orgPairLE pairs
  let pairs :=
    if truthy component then pairs.filter (fun p => p.2.name = component.getD "")
    else pairs
  let organisms := pairs.map (fun p => p.1)
  if with_dataset then
    organisms.filter (fun o => (st.datasets.filter (fun d => d.organism_id = o.id)).length > 0)
  else organisms

/-! ### Dataset listing (`api.py`, `list_datasets`) -/

/-- One row of the join
`Dataset JOIN Organism JOIN Component JOIN Sample JOIN Accession`. -/
structure JoinRow where
  d : Dataset
  o : Organism
  c : Component
  s : Sample
  a : Accession
deriving DecidableEq, Repr

/-- The inner join underlying `list_datasets`: datasets with their
organism, the organism's component, their samples and each sample's
accessions.  A dataset with no samples, or whose samples have no
accessions, contributes no row. -/
def joinRows (st : RegistryState) : List JoinRow :=
  st.datasets.flatMap (fun d =>
    (st.organisms.filter (fun o => o.id = d.organism_id)).flatMap (fun o =>
      (st.components.filter (fun c => c.id = o.component_id)).flatMap (fun c =>
        (st.samples.filter (fun s => s.dataset_id = d.id)).flatMap (fun s =>
          (st.accessions.filter (fun a => a.sample_id = s.id)).map (fun a =>
            { d := d, o := o, c := c, s := s, a := a })))))

/-- Conjunction of the optional `where` clauses of `list_datasets`
(string filters use Python truthiness, `release` and `latest` are
compared only when not `None`). -/
def rowMatches (component organism dataset_name : Option String)
    (release : Option Int) (latest : Option Bool) (r : JoinRow) : Bool :=
  (if truthy component then r.c.name = component.getD "" else true) &&
  (if truthy organism then r.o.abbr = organism.getD "" else true) &&
  (if truthy dataset_name then r.d.name = dataset_name.getD "" else true) &&
  (match release with | some rel => r.d.release = rel | none => true) &&
  (match latest with | some b => r.d.latest = b | none => true)

/-- Ordering key of `list_datasets`: `(Dataset.release, Component.name,
Organism.abbr, Dataset.name, Sample.name, Accession.sra_id)`. -/
def joinLE (x y : JoinRow) : Bool :=
  if x.d.release = y.d.release then
    if x.c.name = y.c.name then
      if x.o.abbr = y.o.abbr then
        if x.d.name = y.d.name then
          if x.s.name = y.s.name then
            strLt x.a.sra_id y.a.sra_id || x.a.sra_id = y.a.sra_id
          else strLt x.s.name y.s.name
        else strLt x.d.name y.d.name
      else strLt x.o.abbr y.o.abbr
    else strLt x.c.name y.c.name
  else decide (x.d.release < y.d.release)

/-- Models `.unique()` on the scalar result: deduplicate the joined rows
by dataset id, keeping the first occurrence of each dataset. -/
def dedupById : List JoinRow → List Nat → List Dataset
  | [], _ => []
  | r :: rest, seen =>
    if seen.any (fun n => n = r.d.id) then dedupById rest seen
    else r.d :: dedupById rest (r.d.id :: seen)

/-- Expresses `list_datasets`: the join of §`joinRows`, filtered by the
provided clauses, ordered, and deduplicated per dataset. -/
def list_datasets (st : RegistryState) (component organism dataset_name : Option String)
    (release : Option Int) (latest : Option Bool) : List Dataset :=
  dedupById (sortBy joinLE ((joinRows st).filter
    (rowMatches component organism dataset_name release latest))) []

/-! ### Retiring and removing datasets (`api.py`) -/

/-- Expresses `retire_dataset`: set `latest = False` on the dataset row,
set `retired = release` unless `release` is `None`, and commit. -/
def retire_dataset (st : RegistryState) (dataset_id : Nat) (release : Option Int) :
    RegistryState :=
  { st with datasets := st.datasets.map (fun d =>
      if d.id = dataset_id then
        match release with
        | some r => { d with latest := false, retired := r }
        | none => { d with latest := false }
      else d) }

/-! ### Bulk organism import (`api.py`, `load_organisms`) -/

/-- Python `str.strip()` on the character list of a line. -/
def trimChars (cs : List Char) : List Char :=
  ((cs.dropWhile Char.isWhitespace).reverse.dropWhile Char.isWhitespace).reverse

/-- Python `str.split("\t")`. -/
def splitTab : List Char → List (List Char)
  | [] => [[]]
  | c :: rest =>
    let r := splitTab rest
    if c = '\t' then [] :: r
    else match r with
      | [] => [[c]]
      | p :: ps => (c :: p) :: ps

/-- One line of the organism tab-file after `line.strip()`: `none` for a
blank line (skipped), `(component_name, organism_abbrev)` for a two-field
line, and `ValueError` otherwise. -/
def parseLine (line : String) : Except PyError (Option (String × String)) :=
  let cs := trimChars line.toList
  if cs = [] then .ok none
  else match splitTab cs with
    | [c, o] => .ok (some (⟨c⟩, ⟨o⟩))
    | _ => .error (.valueError ("Organism line requires 2 values"))

/-- The snapshot `components = {comp.name: comp for comp in self.list_components()}`
taken at the start of `load_organisms`, keyed by name with the component id
as payload. -/
def componentsDictOf (st : RegistryState) : List (String × Nat) :=
  (list_components st).foldl (fun d c => dictInsert d c.name c.id) []

/-- The snapshot `abbrevs = {org.abbrev for comp in components.values()
for org in comp.organisms}`: abbreviations of all organisms attached to a
component present in the snapshot dict. -/
def abbrevSetOf (st : RegistryState) : List String :=
  (componentsDictOf st).flatMap (fun e =>
    (st.organisms.filter (fun o => o.component_id = e.2)).map (fun o => o.abbr))

/-- The line loop of `load_organisms`: for each non-blank line, create the
component on the fly if its name is new (committing immediately), skip the
line when the organism abbreviation is already known, and otherwise record
the abbreviation and the pending `(component, abbrev)` pair. -/
def scanLines (st : RegistryState) (components : List (String × Nat)) (abbrevs : List String)
    (acc : List (String × String)) :
    List String →
      Except PyError (List (String × Nat) × List String × List (String × String)) × RegistryState
  | [] => (.ok (components, abbrevs, acc), st)
  | line :: rest =>
    match parseLine line with
    | .error e => (.error e, st)
    | .ok none => scanLines st components abbrevs acc rest
    | .ok (some (component_name, organism_abbrev)) =>
      if (alookup component_name components).isSome then
        if abbrevs.any (fun x => x = organism_abbrev) then
          scanLines st components abbrevs acc rest
        else
          scanLines st components (abbrevs ++ [organism_abbrev])
            (acc ++ [(component_name, organism_abbrev)]) rest
      else
        match add_component st component_name with
        | (.error e, st₁) => (.error e, st₁)
        | (.ok comp, st₁) =>
          let components₁ := dictInsert components component_name comp.id
          if abbrevs.any (fun x => x = organism_abbrev) then
            scanLines st₁ components₁ abbrevs acc rest
          else
            scanLines st₁ components₁ (abbrevs ++ [organism_abbrev])
              (acc ++ [(component_name, organism_abbrev)]) rest

/-- The final `add_all` + `commit` of `load_organisms`: insert one organism
row per pending `(abbrev, component_id)` pair; the unique constraint on
`organism.abbrev` is checked per row, and a violation aborts the whole
commit (rollback happens at the caller). -/
def insertOrganisms (st : RegistryState) : List (String × Nat) → Except PyError RegistryState
  | [] => .ok st
  | pending :: rest =>
    if st.organisms.any (fun o => o.abbr = pending.1) then .error .integrityError
    else
      insertOrganisms
        { st with
          organisms := st.organisms ++ [{ id := st.nextId, abbr := pending.1, component_id := pending.2 }],
          nextId := st.nextId + 1 } rest

/-- Expresses `load_organisms`: snapshot components and abbrevs, scan the
lines (creating new components immediately, skipping known abbrevs), then
bulk-insert the surviving organisms attached to their components and
commit once, returning the number inserted. -/
def load_organisms (st : RegistryState) (lines : List String) :
    Except PyError Nat × RegistryState :=
  let components := componentsDictOf st
  let abbrevs := abbrevSetOf st
  match scanLines st components abbrevs [] lines with
  | (.error e, st₁) => (.error e, st₁)
  | (.ok (components₁, _, new_orgs_data), st₁) =>
    let orgs_to_add := new_orgs_data.map (fun p => (p.2, (alookup p.1 components₁).getD 0))
    match insertOrganisms st₁ orgs_to_add with
    | .ok st₂ => (.ok new_orgs_data.length, st₂)
    | .error e => (.error e, st₁)

/-! ### Bulk dataset import (`api.py`, `_check_json_data` / `load_datasets`)

The input document is a JSON array validated against
`schemas/brc4_rnaseq_schema.json` before any mutation.  Modelled from the
spec: that schema file is not under `src/`; per the spec each record has
required fields `species` (string), `name` (string), `runs` (array of
`{name, accessions}`), and optional `component` (string), `release`
(integer), `trim_reads` (boolean, per run), `no_spliced` (boolean).  A
value of `DatasetRecord` below is therefore exactly a record that passes
schema validation (optional fields are `Option`, absent = `none`), and the
`validate` call itself needs no further modelling. -/

/-- One entry of a record's `runs` array. -/
structure RunRecord where
  name : String
  accessions : List String
  trim_reads : Option Bool
deriving DecidableEq, Repr

/-- One schema-valid record of the dataset document. -/
structure DatasetRecord where
  component : Option String
  species : String
  name : String
  runs : List RunRecord
  release : Option Int
  no_spliced : Option Bool
deriving DecidableEq, Repr

/-- A `Sample(...)` object built in memory before the bulk insert: its
`name` and the `sra_id`s of its `Accession` children. -/
structure PendingSample where
  name : String
  accessions : List String
deriving DecidableEq, Repr

/-- A `Dataset(...)` object built in memory before the bulk insert. -/
structure PendingDataset where
  name : String
  organism_id : Nat
  release : Int
  samples : List PendingSample
deriving DecidableEq, Repr

/-- The call `Sample(name=run["name"], accessions=accessions,
trim_reads=trim_reads)` in pass 2 of `load_datasets`: the declarative
constructor rejects any keyword argument that is not a mapped attribute of
`Sample`. -/
def sampleNew (name : String) (accessions : List String) (_trim_reads : Bool) :
    Except PyError PendingSample :=
  match invalidKwarg sampleAttrs ["name", "accessions", "trim_reads"] with
  | some k => .error (.typeError (k ++ " is an invalid keyword argument for Sample"))
  | none => .ok { name := name, accessions := accessions }

/-- The call `Dataset(name=..., organism_id=..., samples=..., release=...,
no_spliced=...)` in pass 2 of `load_datasets`, with the same declarative
constructor check against the mapped attributes of `Dataset`. -/
def datasetNew (name : String) (organism_id : Nat) (samples : List PendingSample)
    (release : Int) (_no_spliced : Bool) : Except PyError PendingDataset :=
  match invalidKwarg datasetAttrs ["name", "organism_id", "samples", "release", "no_spliced"] with
  | some k => .error (.typeError (k ++ " is an invalid keyword argument for Dataset"))
  | none =>
    .ok { name := name, organism_id := organism_id, release := release, samples := samples }

/-- The inner loop over `dataset["runs"]` in pass 2: build the
`Accession(sra_id=acc)` children (all keyword arguments of that call are
mapped attributes) and one `Sample` per run, with
`trim_reads = run.get("trim_reads", False)`. -/
def buildSamples : List RunRecord → Except PyError (List PendingSample)
  | [] => .ok []
  | run :: rest =>
    match sampleNew run.name run.accessions (run.trim_reads.getD false) with
    | .error e => .error e
    | .ok s =>
      match buildSamples rest with
      | .error e => .error e
      | .ok ss => .ok (s :: ss)

/-- Pass 2 of `load_datasets` ("Second run to actually add things"):
construct the `Sample` and `Dataset` objects of every checked record.  The
local variable `release` is reassigned whenever a record carries its own
`release` ("Replace release (higher priority from file)") and the
reassigned value is what later iterations see. -/
def insertLoop (abbrevs : List (String × Nat)) :
    List DatasetRecord → Int → Except PyError (List PendingDataset)
  | [], _ => .ok []
  | r :: rest, release =>
    match buildSamples r.runs with
    | .error e => .error e
    | .ok samples =>
      let release := match r.release with | some v => v | none => release
      let no_spliced := r.no_spliced.getD false
      match alookup r.species abbrevs with
      | none => .error (.keyError r.species)
      | some organism_id =>
        match datasetNew r.name organism_id samples release no_spliced with
        | .error e => .error e
        | .ok p =>
          match insertLoop abbrevs rest release with
          | .error e => .error e
          | .ok ps => .ok (p :: ps)

/-- Samples of a dataset row (`Dataset.samples` relationship). -/
def samplesOf (st : RegistryState) (dataset_id : Nat) : List Sample :=
  st.samples.filter (fun s => s.dataset_id = dataset_id)

/-- Accessions of a sample row (`Sample.accessions` relationship). -/
def accessionsOf (st : RegistryState) (sample_id : Nat) : List Accession :=
  st.accessions.filter (fun a => a.sample_id = sample_id)

/-- Observable structure of a dataset's sample tree, mirroring the `runs`
part of `Dataset.to_json_struct`: one `(sample name, accession sra_ids)`
pair per sample row. -/
def structureOf (st : RegistryState) (dataset_id : Nat) : List (String × List String) :=
  (samplesOf st dataset_id).map (fun s =>
    (s.name, (accessionsOf st s.id).map (fun a => a.sra_id)))

/-- Observable structure of a pending (not yet flushed) dataset. -/
def PendingDataset.structure (p : PendingDataset) : List (String × List String) :=
  p.samples.map (fun q => (q.name, q.accessions))

/-- Well-formedness of the id allocator: every dataset, sample and
accession row — and every foreign key stored in samples and accessions —
lies strictly below the autoincrement counter, as is the case for
databases whose rows were created through the allocator. -/
def WfIds (st : RegistryState) : Prop :=
  (∀ d ∈ st.datasets, d.id < st.nextId) ∧
  (∀ s ∈ st.samples, s.id < st.nextId ∧ s.dataset_id < st.nextId) ∧
  (∀ a ∈ st.accessions, a.id < st.nextId ∧ a.sample_id < st.nextId)

instance (st : RegistryState) : Decidable (WfIds st) := by
  unfold WfIds
  infer_instance

/-- Allocate `Accession` rows of one sample at commit time: ids are drawn
from the autoincrement counter starting at `nid`. -/
def allocAccessions (nid sid : Nat) : List String → List Accession × Nat
  | [] => ([], nid)
  | sra :: rest =>
    let r := allocAccessions (nid + 1) sid rest
    ({ id := nid, sra_id := sra, sample_id := sid } :: r.1, r.2)

/-- Allocate the `Sample` and `Accession` rows of one pending dataset at
commit time. -/
def allocSamples (nid dsId : Nat) : List PendingSample → List Sample × List Accession × Nat
  | [] => ([], [], nid)
  | s :: rest =>
    let accs := allocAccessions (nid + 1) nid s.accessions
    let r := allocSamples accs.2 dsId rest
    ({ id := nid, name := s.name, dataset_id := dsId } :: r.1, accs.1 ++ r.2.1, r.2.2)

/-- Flush one pending dataset: a fresh `dataset` row (column defaults
`latest = true`, `retired = 0`) plus its sample and accession rows. -/
def insertOne (st : RegistryState) (p : PendingDataset) : RegistryState :=
  let dId := st.nextId
  let alloc := allocSamples (dId + 1) dId p.samples
  { st with
    datasets := st.datasets ++
      [{ id := dId, name := p.name, release := p.release, retired := 0, latest := true,
         organism_id := p.organism_id }],
    samples := st.samples ++ alloc.1,
    accessions := st.accessions ++ alloc.2.1,
    nextId := alloc.2.2 }

/-- The `UniqueConstraint(name, organism_id, latest, retired)` of the
`dataset` table, evaluated against a pending row (whose `latest`/`retired`
take the column defaults `true`/`0`). -/
def datasetConflict (st : RegistryState) (p : PendingDataset) : Bool :=
  st.datasets.any (fun d =>
    d.name = p.name && d.organism_id = p.organism_id && d.latest == true && d.retired = 0)

/-- The bulk `add_all` + `commit` of pending datasets: rows are flushed in
order; the first uniqueness violation raises `IntegrityError` and the
caller rolls the whole commit back. -/
def insertAll (st : RegistryState) : List PendingDataset → Except PyError RegistryState
  | [] => .ok st
  | p :: rest =>
    if datasetConflict st p then .error .integrityError
    else insertAll (insertOne st p) rest

/-- The `try: cur_datasets[species][name] ... except KeyError: pass` step
of `_check_json_data`: `none` means the record is skipped (a latest
dataset of the same organism and name exists and `replace` is unset);
`some st'` means the record is kept, after retiring the existing dataset
when `replace` is set. -/
def dupCheck (st : RegistryState) (dataset : DatasetRecord)
    (cur_datasets : List (String × List (String × Nat))) (release : Option Int)
    (replace : Bool) : Option RegistryState :=
  match (alookup2 dataset.species cur_datasets).bind (fun m => alookup dataset.name m) with
  | some cur_id =>
    if replace then some (retire_dataset st cur_id release)
    else none
  | none => some st

/-- Expresses `_check_json_data` (pass 1 of `load_datasets`): for each
record, read `dataset["component"]` (a `KeyError` if the optional field is
absent), resolve the organism — auto-adding it under `replace`, skipping
the record otherwise — then apply the duplicate-dataset check of
`dupCheck`.  Returns the checked records together with the updated
`abbrevs` dict. -/
def _check_json_data (st : RegistryState) (json_data : List DatasetRecord)
    (cur_datasets : List (String × List (String × Nat))) (abbrevs : List (String × Nat))
    (release : Option Int) (replace : Bool) :
    Except PyError (List DatasetRecord × List (String × Nat)) × RegistryState :=
  match json_data with
  | [] => (.ok ([], abbrevs), st)
  | dataset :: rest =>
    match dataset.component with
    | none => (.error (.keyError ("component")), st)
    | some component =>
      let proceed := fun (st₁ : RegistryState) (abbrevs₁ : List (String × Nat)) =>
        match dupCheck st₁ dataset cur_datasets release replace with
        | none => _check_json_data st₁ rest cur_datasets abbrevs₁ release replace
        | some st₂ =>
          match _check_json_data st₂ rest cur_datasets abbrevs₁ release replace with
          | (.error e, st₃) => (.error e, st₃)
          | (.ok (checked, abbrevs₂), st₃) => (.ok (dataset :: checked, abbrevs₂), st₃)
      if (alookup dataset.species abbrevs).isSome then proceed st abbrevs
      else if replace then
        match add_organism st dataset.species component with
        | (.error e, st₁) => (.error e, st₁)
        | (.ok org, st₁) => proceed st₁ (dictInsert abbrevs dataset.species org.id)
      else
        _check_json_data st rest cur_datasets abbrevs release replace

/-- The snapshot of existing latest datasets taken by `load_datasets`:
`cur_datasets[organism_abbrev][dataset_name] = dataset`, seeded with an
empty dict per known abbrev.  The `none` branch is unreachable: the join
in `list_datasets` guarantees the organism row exists. -/
def curDatasetsOf (st : RegistryState) (abbrevs : List (String × Nat)) :
    List (String × List (String × Nat)) :=
  (list_datasets st none none none none (some true)).foldl (fun cur d =>
    match st.organisms.find? (fun o => o.id = d.organism_id) with
    | some o => dictInsert2 cur o.abbr (dictInsert ((alookup2 o.abbr cur).getD []) d.name d.id)
    | none => cur)
    (abbrevs.map (fun p => (p.1, ([] : List (String × Nat)))))

/-- Expresses `load_datasets`: validate the document (see the section
comment), snapshot organisms and existing latest datasets, run the check
pass, apply the `--replace` / `--ignore` gate, then build and bulk-insert
the checked records, returning the number loaded. -/
def load_datasets (st : RegistryState) (json_data : List DatasetRecord) (release : Int)
    (replace ignore : Bool) : Except PyError Nat × RegistryState :=
  let abbrevs := (list_organisms st none false).foldl (fun d o => dictInsert d o.abbr o.id) []
  let cur_datasets := curDatasetsOf st abbrevs
  match _check_json_data st json_data cur_datasets abbrevs (some release) replace with
  | (.error e, st₁) => (.error e, st₁)
  | (.ok (checked, abbrevs₁), st₁) =>
    if json_data.length - checked.length > 0 && !ignore then (.ok 0, st₁)
    else
      match insertLoop abbrevs₁ checked release with
      | .error e => (.error e, st₁)
      | .ok pendings =>
        match insertAll st₁ pendings with
        | .ok st₂ => (.ok checked.length, st₂)
        | .error e => (.error e, st₁)

/-! ### Remapping datasets between organisms (`api.py`, `remap`) -/

/-- The deep copy of one source dataset built in the remap loop:
one `Sample(name=..., accessions=[Accession(sra_id=...), ...])` per sample
of the source, and a `Dataset(name=..., organism_id=..., samples=...,
release=...)` attached to the destination organism. -/
def remapCopy (st : RegistryState) (organism_id : Nat) (release : Int) (old : Dataset) :
    PendingDataset :=
  { name := old.name, organism_id := organism_id, release := release,
    samples := (samplesOf st old.id).map (fun s =>
      { name := s.name, accessions := (accessionsOf st s.id).map (fun a => a.sra_id) }) }

/-- Expresses `remap`: list the latest datasets of the source organism (a
no-op if there are none), resolve the destination organism, deep-copy each
dataset with its samples and accessions by value at the given release, then
retire the originals when `retire_remapped` is set, and bulk-insert the
copies in one commit.  The constructor calls here (`Sample(name=...,
accessions=...)`, `Dataset(name=..., organism_id=..., samples=...,
release=...)`, `Accession(sra_id=...)`) pass only mapped attributes, so
the declarative constructor check succeeds. -/
def remap (st : RegistryState) (org_from org_to : String) (release : Int)
    (retire_remapped : Bool) : Except PyError Unit × RegistryState :=
  let datasets_from := list_datasets st none (some org_from) none none (some true)
  if datasets_from.isEmpty then (.ok (), st)
  else
    match get_organism st org_to with
    | .error e => (.error e, st)
    | .ok new_org =>
      let new_datasets : List PendingDataset :=
        datasets_from.map (remapCopy st new_org.id release)
      let st₁ :=
        if retire_remapped then
          datasets_from.foldl (fun acc old => retire_dataset acc old.id (some release)) st
        else st
      match insertAll st₁ new_datasets with
      | .ok st₂ => (.ok (), st₂)
      | .error e => (.error e, st₁)

/-! ## Verified properties

Concrete states below are small databases written out literally; each
claim uses its own states and documents. -/

/-- Registry with one component `c` and one organism `spA` for the
dataset-load gate scenario. -/
def stC1 : RegistryState := ⟨[⟨1, "c"⟩], [⟨2, "spA", 1⟩], [], [], [], 3⟩

/-- Two-record document: the first record names the unknown organism
`spX` (so it fails the check pass when `replace` is unset), the second a
known organism. -/
def docC1 : List DatasetRecord :=
  [⟨some "c", "spX", "d1", [⟨"r1", ["SRR1"], none⟩], none, none⟩,
   ⟨some "c", "spA", "d2", [⟨"r2", ["SRR2"], none⟩], none, none⟩]

/-- C1 (code_bug): on a document with N = 2 records of which K = 1 fails
the check pass, `load_datasets` with neither `replace` nor `ignore`
returns 0 and leaves the registry unchanged (as the claim states), but
with `ignore = true` it raises `TypeError` — the `Sample` class has no
`trim_reads` attribute — instead of inserting the N − K = 1 checked
record; the registry is again unchanged. -/
theorem load_datasets_gate_and_ignore_eval :
    load_datasets stC1 docC1 10 false false = (.ok 0, stC1) ∧
    load_datasets stC1 docC1 10 false true =
      (.error (.typeError ("trim_reads is an invalid keyword argument for Sample")), stC1) := by
  decide

/-- Registry for the pass-2 construction scenario. -/
def stC2 : RegistryState := ⟨[⟨1, "c"⟩], [⟨2, "spA", 1⟩], [], [], [], 3⟩

/-- One checked record whose single run carries `trim_reads = true`. -/
def docC2 : List DatasetRecord :=
  [⟨some "c", "spA", "d1", [⟨"r1", ["SRR1"], some true⟩], none, some true⟩]

/-- C2 (code_bug): pass 2 never constructs the claimed rows.  The call
`Sample(name=..., accessions=..., trim_reads=...)` raises `TypeError`
because `Sample` declares no `trim_reads` column (and `Dataset` declares
no `no_spliced` column), so the load fails and no row of any kind is
inserted. -/
theorem load_datasets_sample_ctor_typeerror :
    load_datasets stC2 docC2 10 false false =
      (.error (.typeError ("trim_reads is an invalid keyword argument for Sample")), stC2) := by
  decide

/-- Registry for the per-record release scenario. -/
def stC3 : RegistryState := ⟨[⟨1, "c"⟩], [⟨2, "spA", 1⟩], [], [], [], 3⟩

/-- Two checked records: the first carries its own `release = 5`, the
second carries none (the claim says it should receive the call's
release). -/
def docC3 : List DatasetRecord :=
  [⟨some "c", "spA", "d1", [⟨"r1", ["SRR1"], none⟩], some 5, none⟩,
   ⟨some "c", "spA", "d2", [⟨"r2", ["SRR2"], none⟩], none, none⟩]

/-- C3 (code_bug): no record's Dataset row is ever inserted — pass 2
raises `TypeError` on the first `Sample` construction — so no inserted
row stores any release at all.  (Reading pass 2 further, the local
`release` variable is reassigned by records carrying their own release,
so even with valid constructors the second record would receive 5, not
the call argument 10.) -/
theorem load_datasets_release_never_stored :
    (load_datasets stC3 docC3 10 false false).1 =
      .error (.typeError ("trim_reads is an invalid keyword argument for Sample")) ∧
    (load_datasets stC3 docC3 10 false false).2.datasets = [] := by
  decide

/-- Registry holding an existing latest dataset `spA/d1` (release 5) with
one sample and one accession. -/
def stC4 : RegistryState :=
  ⟨[⟨1, "c"⟩], [⟨2, "spA", 1⟩], [⟨3, "d1", 5, 0, true, 2⟩], [⟨4, "s1", 3⟩],
   [⟨5, "SRR1", 4⟩], 6⟩

/-- A record duplicating the existing latest dataset `spA/d1`. -/
def docC4 : List DatasetRecord :=
  [⟨some "c", "spA", "d1", [⟨"r1", ["SRR9"], none⟩], none, none⟩]

/-- C4 (code_bug): with `replace = true` the check pass does retire the
existing row — `latest` becomes false and `retired` becomes the load's
release 10, and the row is not deleted — but the claimed insertion of the
replacement never happens: pass 2 raises `TypeError` and the dataset
table still holds only the retired original. -/
theorem load_datasets_replace_retires_but_insert_fails :
    (load_datasets stC4 docC4 10 true false).1 =
      .error (.typeError ("trim_reads is an invalid keyword argument for Sample")) ∧
    (load_datasets stC4 docC4 10 true false).2.datasets = [⟨3, "d1", 5, 10, false, 2⟩] ∧
    (load_datasets stC4 docC4 10 true false).2.samples = stC4.samples := by
  decide

/-- Registry with a known organism for the optional-component scenario. -/
def stC8 : RegistryState := ⟨[⟨1, "c"⟩], [⟨2, "spA", 1⟩], [], [], [], 3⟩

/-- A schema-valid record with all required fields (`species`, `name`,
`runs`) and no `component` field. -/
def docC8 : List DatasetRecord :=
  [⟨none, "spA", "d1", [⟨"r1", ["SRR1"], none⟩], none, none⟩]

/-- C8 (code_bug): the check pass reads `dataset["component"]`
unconditionally as its first step, so a schema-valid record without the
optional `component` field raises `KeyError('component')` instead of
being processed. -/
theorem load_datasets_missing_component_keyerror :
    load_datasets stC8 docC8 0 false false = (.error (.keyError ("component")), stC8) := by
  decide

/-- Registry with a latest dataset that has no sample rows. -/
def stC5x : RegistryState :=
  ⟨[⟨1, "TestDB"⟩], [⟨2, "speciesA", 1⟩], [⟨3, "d1", 10, 0, true, 2⟩], [], [], 4⟩

/-- C5 counterexample: after `retire_dataset(d, 5)` the dataset row is
retired as claimed, but — having no samples — it is *not* included in
`list_datasets(latest=None)`: the inner join of `list_datasets` drops it,
so the claim's inclusion conjunct fails for this dataset. -/
theorem retire_no_samples_excluded_from_list_all :
    (⟨3, "d1", 10, 5, false, 2⟩ : Dataset) ∈ (retire_dataset stC5x 3 (some 5)).datasets ∧
    list_datasets (retire_dataset stC5x 3 (some 5)) none none none none none = [] := by
  decide

/-- Registry where organism `A` has a latest dataset with no samples and
`B` exists as a destination. -/
def stC7x : RegistryState :=
  ⟨[⟨0, "c"⟩], [⟨1, "A", 0⟩, ⟨2, "B", 0⟩], [⟨3, "d1", 1, 0, true, 1⟩], [], [], 4⟩

/-- C7 counterexample: organism `A` has a latest dataset, but that dataset
has no samples, so `list_datasets` does not see it and `remap(A, B)` is a
no-op: contrary to the claim, no copy of it is attached to `B`. -/
theorem remap_skips_sampleless_dataset :
    (⟨3, "d1", 1, 0, true, 1⟩ : Dataset) ∈ stC7x.datasets ∧
    remap stC7x "A" "B" 0 false = (.ok (), stC7x) ∧
    stC7x.datasets.filter (fun d => d.organism_id = 2) = [] := by
  decide

/-! ### General lemmas about the embedded queries -/

theorem mem_orderedIns {α : Type} (le : α → α → Bool) (a x : α) (l : List α) :
    x ∈ orderedIns le a l ↔ x = a ∨ x ∈ l := by
  induction l with
  | nil => simp [orderedIns]
  | cons b t ih =>
    simp only [orderedIns]
    split
    · simp
    · simp only [List.mem_cons, ih]
      tauto

theorem mem_sortBy {α : Type} (le : α → α → Bool) (x : α) (l : List α) :
    x ∈ sortBy le l ↔ x ∈ l := by
  induction l with
  | nil => simp [sortBy]
  | cons b t ih => simp [sortBy, mem_orderedIns, ih]

theorem dedupById_sub {l : List JoinRow} {seen : List Nat} {x : Dataset}
    (h : x ∈ dedupById l seen) : ∃ r ∈ l, r.d = x := by
  induction l generalizing seen with
  | nil => simp [dedupById] at h
  | cons r rest ih =>
    simp only [dedupById] at h
    split at h
    · obtain ⟨r', hr', hx⟩ := ih h
      exact ⟨r', List.mem_cons_of_mem _ hr', hx⟩
    · rcases List.mem_cons.mp h with hx | hx
      · exact ⟨r, List.mem_cons_self _ _, hx.symm⟩
      · obtain ⟨r', hr', hx'⟩ := ih hx
        exact ⟨r', List.mem_cons_of_mem _ hr', hx'⟩

theorem dedupById_mem {l : List JoinRow} {x : Dataset} {seen : List Nat}
    (hex : ∃ r ∈ l, r.d = x)
    (huniq : ∀ r ∈ l, r.d.id = x.id → r.d = x)
    (hseen : x.id ∉ seen) : x ∈ dedupById l seen := by
  induction l generalizing seen with
  | nil => obtain ⟨r, hr, _⟩ := hex; simp at hr
  | cons r rest ih =>
    simp only [dedupById]
    by_cases hid : r.d.id = x.id
    · have hrd : r.d = x := huniq r (List.mem_cons_self _ _) hid
      have : ¬ seen.any (fun n => n = r.d.id) = true := by
        simp only [List.any_eq_true, decide_eq_true_eq]
        rintro ⟨n, hn, rfl⟩
        exact hseen (hid ▸ hn)
      rw [if_neg this]
      exact List.mem_cons.mpr (Or.inl hrd.symm)
    · have hex' : ∃ r' ∈ rest, r'.d = x := by
        obtain ⟨r', hr', hx⟩ := hex
        rcases List.mem_cons.mp hr' with h | h
        · subst h
          exact absurd (congrArg Dataset.id hx) hid
        · exact ⟨r', h, hx⟩
      have huniq' : ∀ r' ∈ rest, r'.d.id = x.id → r'.d = x :=
        fun r' hr' => huniq r' (List.mem_cons_of_mem _ hr')
      split
      · exact ih hex' huniq' hseen
      · refine List.mem_cons_of_mem _ (ih hex' huniq' ?_)
        simp only [List.mem_cons]
        rintro (h | h)
        · exact hid (h.symm)
        · exact hseen h

theorem mem_joinRows_fields {st : RegistryState} {r : JoinRow} (h : r ∈ joinRows st) :
    r.d ∈ st.datasets ∧ r.o ∈ st.organisms ∧ r.o.id = r.d.organism_id ∧
      r.c ∈ st.components ∧ r.c.id = r.o.component_id ∧
      r.s ∈ st.samples ∧ r.s.dataset_id = r.d.id ∧
      r.a ∈ st.accessions ∧ r.a.sample_id = r.s.id := by
  simp only [joinRows, List.mem_flatMap, List.mem_filter, List.mem_map,
    decide_eq_true_eq] at h
  obtain ⟨d, hd, o, ho, c, hc, s, hs, a, ha, heq⟩ := h
  subst heq
  exact ⟨hd, ho.1, ho.2, hc.1, hc.2, hs.1, hs.2, ha.1, ha.2⟩

theorem joinRows_intro {st : RegistryState} {d : Dataset} {o : Organism} {c : Component}
    {s : Sample} {a : Accession}
    (hd : d ∈ st.datasets) (ho : o ∈ st.organisms) (hoid : o.id = d.organism_id)
    (hc : c ∈ st.components) (hcid : c.id = o.component_id)
    (hs : s ∈ st.samples) (hsid : s.dataset_id = d.id)
    (ha : a ∈ st.accessions) (haid : a.sample_id = s.id) :
    (⟨d, o, c, s, a⟩ : JoinRow) ∈ joinRows st := by
  simp only [joinRows, List.mem_flatMap, List.mem_filter, List.mem_map, decide_eq_true_eq]
  exact ⟨d, hd, o, ⟨ho, hoid⟩, c, ⟨hc, hcid⟩, s, ⟨hs, hsid⟩, a, ⟨ha, haid⟩, rfl⟩

/-- C9 (confirmed): `list_datasets` reaches datasets only through the
inner join with `Sample` and `Accession`, so a dataset with zero samples,
or all of whose samples have zero accessions, never appears in its
result, for any combination of filters (and is therefore invisible to
every operation driven by `list_datasets`, such as `remap`). -/
theorem list_datasets_requires_sample_and_accession
    (st : RegistryState) (component organism dataset_name : Option String)
    (release : Option Int) (latest : Option Bool) (d : Dataset)
    (h : samplesOf st d.id = [] ∨ ∀ s ∈ samplesOf st d.id, accessionsOf st s.id = []) :
    d ∉ list_datasets st component organism dataset_name release latest := by
  intro hmem
  simp only [list_datasets] at hmem
  obtain ⟨r, hr, hrd⟩ := dedupById_sub hmem
  rw [mem_sortBy] at hr
  have hr' := (List.mem_filter.mp hr).1
  obtain ⟨_, _, _, _, _, hs, hsid, ha, haid⟩ := mem_joinRows_fields hr'
  have hsmem : r.s ∈ samplesOf st d.id := by
    simp only [samplesOf, List.mem_filter, decide_eq_true_eq]
    exact ⟨hs, by rw [hsid, hrd]⟩
  rcases h with h | h
  · rw [h] at hsmem
    simp at hsmem
  · have hempty : accessionsOf st r.s.id = [] := h r.s hsmem
    have hamem : r.a ∈ accessionsOf st r.s.id := by
      simp only [accessionsOf, List.mem_filter, decide_eq_true_eq]
      exact ⟨ha, haid⟩
    rw [hempty] at hamem
    simp at hamem

/-- Registry with a latest dataset that has no samples, for the C9
witness. -/
def stC9 : RegistryState :=
  ⟨[⟨1, "c"⟩], [⟨2, "spA", 1⟩], [⟨3, "d1", 0, 0, true, 2⟩], [], [], 4⟩

/-- Witness for C9 at a concrete registry and the empty filter set. -/
theorem list_datasets_requires_sample_and_accession_witness :
    (samplesOf stC9 3 = [] ∨ ∀ s ∈ samplesOf stC9 3, accessionsOf stC9 s.id = []) ∧
    (⟨3, "d1", 0, 0, true, 2⟩ : Dataset) ∉ list_datasets stC9 none none none none none :=
  ⟨Or.inl (by decide),
   list_datasets_requires_sample_and_accession stC9 none none none none none
     ⟨3, "d1", 0, 0, true, 2⟩ (Or.inl (by decide))⟩

/-- C10 (confirmed): the `with_dataset` filter of `list_organisms` counts
dataset rows regardless of their latest/retired state, so an organism all
of whose datasets are retired (`latest = false`) is still included in
`list_organisms(with_dataset=true)`. -/
theorem list_organisms_with_dataset_includes_retired
    (st : RegistryState) (o : Organism) (c : Component)
    (ho : o ∈ st.organisms) (hc : c ∈ st.components) (hcid : c.id = o.component_id)
    (d : Dataset) (hd : d ∈ st.datasets) (hdo : d.organism_id = o.id)
    (hall : ∀ x ∈ st.datasets, x.organism_id = o.id → x.latest = false) :
    o ∈ list_organisms st none true := by
  simp only [list_organisms, truthy, Bool.false_eq_true, if_false, if_true]
  simp only [List.mem_filter, List.mem_map, decide_eq_true_eq]
  constructor
  · refine ⟨(o, c), ?_, rfl⟩
    rw [mem_sortBy]
    simp only [List.mem_flatMap, List.mem_map, List.mem_filter, decide_eq_true_eq]
    exact ⟨o, ho, c, ⟨hc, hcid⟩, rfl⟩
  · have : d ∈ st.datasets.filter (fun x => x.organism_id = o.id) := by
      simp only [List.mem_filter, decide_eq_true_eq]
      exact ⟨hd, hdo⟩
    exact List.length_pos.mpr (List.ne_nil_of_mem this)

/-- Registry whose only organism owns only a retired dataset, for the C10
witness. -/
def stC10 : RegistryState :=
  ⟨[⟨1, "c"⟩], [⟨2, "spA", 1⟩], [⟨3, "d1", 4, 6, false, 2⟩], [], [], 4⟩

/-- Witness for C10: the organism with only a retired dataset is listed. -/
theorem list_organisms_with_dataset_includes_retired_witness :
    (∀ x ∈ stC10.datasets, x.organism_id = 2 → x.latest = false) ∧
    (⟨2, "spA", 1⟩ : Organism) ∈ list_organisms stC10 none true :=
  ⟨by decide,
   list_organisms_with_dataset_includes_retired stC10 ⟨2, "spA", 1⟩ ⟨1, "c"⟩
     (by decide) (by decide) (by decide) ⟨3, "d1", 4, 6, false, 2⟩ (by decide) (by decide)
     (by decide)⟩

/-- C5 (corrected): retire round-trip for a dataset that `list_datasets`
can reach (at least one sample with at least one accession, and organism
and component rows present; dataset ids assumed unique, as the primary
key guarantees).  After `retire_dataset(d, R)` the row has
`latest = false` and `retired = R`, is excluded from
`list_datasets(latest=true)` and included in `list_datasets(latest=None)`;
with an explicitly null release, `latest` is still cleared and `retired`
keeps its previous value. -/
theorem retire_round_trip
    (st : RegistryState) (d : Dataset) (R : Int)
    (hd : d ∈ st.datasets)
    (hnodup : (st.datasets.map Dataset.id).Nodup)
    (o : Organism) (ho : o ∈ st.organisms) (hoid : o.id = d.organism_id)
    (c : Component) (hc : c ∈ st.components) (hcid : c.id = o.component_id)
    (s : Sample) (hs : s ∈ st.samples) (hsid : s.dataset_id = d.id)
    (a : Accession) (ha : a ∈ st.accessions) (haid : a.sample_id = s.id) :
    ({ d with latest := false, retired := R } : Dataset) ∈
      (retire_dataset st d.id (some R)).datasets ∧
    (∀ x ∈ list_datasets (retire_dataset st d.id (some R)) none none none none (some true),
      x.id ≠ d.id) ∧
    ({ d with latest := false, retired := R } : Dataset) ∈
      list_datasets (retire_dataset st d.id (some R)) none none none none none ∧
    ({ d with latest := false } : Dataset) ∈ (retire_dataset st d.id none).datasets := by
  have hupd : ∀ (rel : Option Int) (y : Dataset),
      ((if y.id = d.id then
          match rel with
          | some r => { y with latest := false, retired := r }
          | none => { y with latest := false }
        else y) : Dataset).id = y.id := by
    intro rel y
    split
    · cases rel <;> rfl
    · rfl
  have hmemmap : ∀ (rel : Option Int) (x : Dataset),
      x ∈ (retire_dataset st d.id rel).datasets →
      ∃ y ∈ st.datasets, x = (if y.id = d.id then
          match rel with
          | some r => { y with latest := false, retired := r }
          | none => { y with latest := false }
        else y) ∧ x.id = y.id := by
    intro rel x hx
    simp only [retire_dataset, List.mem_map] at hx
    obtain ⟨y, hy, hxy⟩ := hx
    exact ⟨y, hy, hxy.symm, by rw [← hxy]; exact hupd rel y⟩
  have hinj : ∀ y ∈ st.datasets, y.id = d.id → y = d :=
    fun y hy hid => List.inj_on_of_nodup_map hnodup hy hd (by rw [hid])
  have hd' : ({ d with latest := false, retired := R } : Dataset) ∈
      (retire_dataset st d.id (some R)).datasets := by
    simp only [retire_dataset]
    refine List.mem_map.mpr ⟨d, hd, ?_⟩
    rw [if_pos rfl]
  have hd'' : ({ d with latest := false } : Dataset) ∈
      (retire_dataset st d.id none).datasets := by
    simp only [retire_dataset]
    refine List.mem_map.mpr ⟨d, hd, ?_⟩
    rw [if_pos rfl]
  refine ⟨hd', ?_, ?_, hd''⟩
  · intro x hx hxd
    simp only [list_datasets] at hx
    obtain ⟨r, hr, hrd⟩ := dedupById_sub hx
    rw [mem_sortBy] at hr
    have hlat : r.d.latest = true := by
      have := (List.mem_filter.mp hr).2
      simp only [rowMatches, truthy, Bool.and_eq_true, decide_eq_true_eq] at this
      exact this.2
    have hrmem := (mem_joinRows_fields (List.mem_filter.mp hr).1).1
    obtain ⟨y, hy, hxy, hidy⟩ := hmemmap (some R) r.d hrmem
    have hyd : y = d := hinj y hy (by rw [← hidy, hrd, hxd])
    subst hyd
    rw [if_pos rfl] at hxy
    rw [hxy] at hlat
    simp at hlat
  · simp only [list_datasets]
    refine dedupById_mem ?_ ?_ (by simp)
    · refine ⟨⟨{ d with latest := false, retired := R }, o, c, s, a⟩, ?_, rfl⟩
      rw [mem_sortBy]
      refine List.mem_filter.mpr ⟨?_, ?_⟩
      · exact joinRows_intro hd' ho hoid hc hcid hs hsid ha haid
      · simp [rowMatches, truthy]
    · intro r hr hrid
      rw [mem_sortBy] at hr
      have hrmem := (mem_joinRows_fields (List.mem_filter.mp hr).1).1
      obtain ⟨y, hy, hxy, hidy⟩ := hmemmap (some R) r.d hrmem
      have hyd : y = d := hinj y hy (by rw [← hidy, hrid])
      subst hyd
      rw [if_pos rfl] at hxy
      exact hxy

/-- Registry with a fully reachable latest dataset (organism, component,
sample and accession rows present), for the C5 witness. -/
def stC5w : RegistryState :=
  ⟨[⟨1, "c"⟩], [⟨2, "spA", 1⟩], [⟨3, "d1", 7, 0, true, 2⟩], [⟨4, "s1", 3⟩],
   [⟨5, "SRR1", 4⟩], 6⟩

/-- Witness for C5 at a concrete registry, retiring with release 9. -/
theorem retire_round_trip_witness :
    (⟨3, "d1", 7, 0, true, 2⟩ : Dataset) ∈ stC5w.datasets ∧
    ((⟨3, "d1", 7, 9, false, 2⟩ : Dataset) ∈ (retire_dataset stC5w 3 (some 9)).datasets ∧
     (∀ x ∈ list_datasets (retire_dataset stC5w 3 (some 9)) none none none none (some true),
       x.id ≠ 3) ∧
     (⟨3, "d1", 7, 9, false, 2⟩ : Dataset) ∈
       list_datasets (retire_dataset stC5w 3 (some 9)) none none none none none ∧
     (⟨3, "d1", 7, 0, false, 2⟩ : Dataset) ∈ (retire_dataset stC5w 3 none).datasets) :=
  ⟨by decide,
   retire_round_trip stC5w ⟨3, "d1", 7, 0, true, 2⟩ 9 (by decide) (by decide)
     ⟨2, "spA", 1⟩ (by decide) (by decide) ⟨1, "c"⟩ (by decide) (by decide)
     ⟨4, "s1", 3⟩ (by decide) (by decide) ⟨5, "SRR1", 4⟩ (by decide) (by decide)⟩

/-! ### Lemmas about the dataset bulk insert (for the remap property) -/

theorem allocAccessions_spec (sid : Nat) (accs : List String) : ∀ nid,
    (allocAccessions nid sid accs).1.map Accession.sra_id = accs ∧
    (∀ a ∈ (allocAccessions nid sid accs).1,
      a.sample_id = sid ∧ nid ≤ a.id ∧ a.id < (allocAccessions nid sid accs).2) ∧
    nid ≤ (allocAccessions nid sid accs).2 := by
  induction accs with
  | nil => intro nid; simp [allocAccessions]
  | cons sra rest ih =>
    intro nid
    obtain ⟨ih1, ih2, ih3⟩ := ih (nid + 1)
    simp only [allocAccessions]
    refine ⟨by simp [ih1], ?_, by omega⟩
    intro a ha
    rcases List.mem_cons.mp ha with rfl | ha
    · exact ⟨rfl, Nat.le_refl _, Nat.lt_of_lt_of_le (Nat.lt_succ_self nid) ih3⟩
    · obtain ⟨h1, h2, h3⟩ := ih2 a ha
      exact ⟨h1, by omega, h3⟩

theorem allocSamples_spec (dsId : Nat) (ps : List PendingSample) : ∀ nid,
    (∀ s ∈ (allocSamples nid dsId ps).1,
      s.dataset_id = dsId ∧ nid ≤ s.id ∧ s.id < (allocSamples nid dsId ps).2.2) ∧
    (∀ a ∈ (allocSamples nid dsId ps).2.1,
      nid ≤ a.id ∧ a.id < (allocSamples nid dsId ps).2.2 ∧
      nid ≤ a.sample_id ∧ a.sample_id < (allocSamples nid dsId ps).2.2) ∧
    nid ≤ (allocSamples nid dsId ps).2.2 ∧
    (allocSamples nid dsId ps).1.map (fun s =>
        (s.name, ((allocSamples nid dsId ps).2.1.filter
          (fun a => a.sample_id = s.id)).map Accession.sra_id)) =
      ps.map (fun q => (q.name, q.accessions)) := by
  induction ps with
  | nil => intro nid; simp [allocSamples]
  | cons q rest ih =>
    intro nid
    obtain ⟨ihs, iha, ihn, ihm⟩ := ih ((allocAccessions (nid + 1) nid q.accessions).2)
    obtain ⟨ha1, ha2, ha3⟩ := allocAccessions_spec nid q.accessions (nid + 1)
    simp only [allocSamples]
    have hn1 : nid + 1 ≤ (allocAccessions (nid + 1) nid q.accessions).2 := ha3
    refine ⟨?_, ?_, by omega, ?_⟩
    · intro s hs
      rcases List.mem_cons.mp hs with rfl | hs
      · exact ⟨rfl, Nat.le_refl _,
          Nat.lt_of_lt_of_le (Nat.lt_succ_self nid) (Nat.le_trans hn1 ihn)⟩
      · obtain ⟨h1, h2, h3⟩ := ihs s hs
        exact ⟨h1, by omega, h3⟩
    · intro a ha
      rcases List.mem_append.mp ha with ha | ha
      · obtain ⟨h1, h2, h3⟩ := ha2 a ha
        refine ⟨by omega, by omega, by omega, by omega⟩
      · obtain ⟨h1, h2, h3, h4⟩ := iha a ha
        exact ⟨by omega, h2, by omega, h4⟩
    · have hfa : List.filter (fun a => a.sample_id = nid)
          (allocAccessions (nid + 1) nid q.accessions).1 =
          (allocAccessions (nid + 1) nid q.accessions).1 := by
        refine List.filter_eq_self.mpr ?_
        intro a ha
        simp only [decide_eq_true_eq]
        exact (ha2 a ha).1
      have hfr : List.filter (fun a => a.sample_id = nid)
          (allocSamples (allocAccessions (nid + 1) nid q.accessions).2 dsId rest).2.1 =
          [] := by
        refine List.filter_eq_nil_iff.mpr ?_
        intro a ha
        simp only [decide_eq_true_eq]
        obtain ⟨h1, h2, h3, h4⟩ := iha a ha
        omega
      simp only [List.map_cons, List.cons.injEq, Prod.mk.injEq, eq_self_iff_true, true_and]
      refine ⟨?_, ?_⟩
      · rw [List.filter_append, hfa, hfr, List.append_nil, ha1]
      · rw [← ihm]
        refine List.map_congr_left ?_
        intro s hs
        obtain ⟨h1, h2, h3⟩ := ihs s hs
        have hfa2 : List.filter (fun a => a.sample_id = s.id)
            (allocAccessions (nid + 1) nid q.accessions).1 = [] := by
          refine List.filter_eq_nil_iff.mpr ?_
          intro a ha
          simp only [decide_eq_true_eq]
          have hnid := (ha2 a ha).1
          omega
        rw [List.filter_append, hfa2, List.nil_append]

theorem insertOne_spec (st : RegistryState) (p : PendingDataset) (hwf : WfIds st) :
    (insertOne st p).components = st.components ∧
    (insertOne st p).organisms = st.organisms ∧
    (insertOne st p).datasets = st.datasets ++
      [⟨st.nextId, p.name, p.release, 0, true, p.organism_id⟩] ∧
    (∃ sRows, (insertOne st p).samples = st.samples ++ sRows ∧
      ∀ s ∈ sRows, s.dataset_id = st.nextId ∧ st.nextId < s.id ∧
        s.id < (insertOne st p).nextId) ∧
    (∃ aRows, (insertOne st p).accessions = st.accessions ++ aRows ∧
      ∀ a ∈ aRows, st.nextId < a.id ∧ a.id < (insertOne st p).nextId ∧
        st.nextId < a.sample_id ∧ a.sample_id < (insertOne st p).nextId) ∧
    st.nextId < (insertOne st p).nextId ∧
    WfIds (insertOne st p) ∧
    structureOf (insertOne st p) st.nextId = p.structure := by
  obtain ⟨w1, w2, w3⟩ := hwf
  obtain ⟨hs, ha, hn, hm⟩ := allocSamples_spec st.nextId p.samples (st.nextId + 1)
  have e1 : (insertOne st p).nextId =
      (allocSamples (st.nextId + 1) st.nextId p.samples).2.2 := rfl
  have e2 : (insertOne st p).samples =
      st.samples ++ (allocSamples (st.nextId + 1) st.nextId p.samples).1 := rfl
  have e3 : (insertOne st p).accessions =
      st.accessions ++ (allocSamples (st.nextId + 1) st.nextId p.samples).2.1 := rfl
  have e4 : (insertOne st p).datasets = st.datasets ++
      [⟨st.nextId, p.name, p.release, 0, true, p.organism_id⟩] := rfl
  have hlt : st.nextId < (insertOne st p).nextId := by rw [e1]; omega
  refine ⟨rfl, rfl, e4, ?_, ?_, hlt, ?_, ?_⟩
  · refine ⟨(allocSamples (st.nextId + 1) st.nextId p.samples).1, e2, ?_⟩
    intro s hmem
    obtain ⟨h1, h2, h3⟩ := hs s hmem
    rw [e1]
    exact ⟨h1, by omega, h3⟩
  · refine ⟨(allocSamples (st.nextId + 1) st.nextId p.samples).2.1, e3, ?_⟩
    intro a hmem
    obtain ⟨h1, h2, h3, h4⟩ := ha a hmem
    rw [e1]
    exact ⟨by omega, h2, by omega, h4⟩
  · refine ⟨?_, ?_, ?_⟩
    · intro d hd
      rw [e4] at hd
      rw [e1]
      rcases List.mem_append.mp hd with hd | hd
      · have := w1 d hd
        omega
      · rw [List.mem_singleton.mp hd]
        exact hlt
    · intro s hmem
      rw [e2] at hmem
      rw [e1]
      rcases List.mem_append.mp hmem with hmem | hmem
      · obtain ⟨hb1, hb2⟩ := w2 s hmem
        omega
      · obtain ⟨h1, h2, h3⟩ := hs s hmem
        omega
    · intro a hmem
      rw [e3] at hmem
      rw [e1]
      rcases List.mem_append.mp hmem with hmem | hmem
      · obtain ⟨hb1, hb2⟩ := w3 a hmem
        omega
      · obtain ⟨h1, h2, h3, h4⟩ := ha a hmem
        omega
  · have hsf : samplesOf (insertOne st p) st.nextId =
        (allocSamples (st.nextId + 1) st.nextId p.samples).1 := by
      simp only [samplesOf]
      rw [e2, List.filter_append]
      have hold : st.samples.filter (fun s => s.dataset_id = st.nextId) = [] := by
        refine List.filter_eq_nil_iff.mpr ?_
        intro s hmem
        simp only [decide_eq_true_eq]
        have := (w2 s hmem).2
        omega
      have hnew : (allocSamples (st.nextId + 1) st.nextId p.samples).1.filter
          (fun s => s.dataset_id = st.nextId) =
          (allocSamples (st.nextId + 1) st.nextId p.samples).1 := by
        refine List.filter_eq_self.mpr ?_
        intro s hmem
        simp only [decide_eq_true_eq]
        exact (hs s hmem).1
      rw [hold, hnew, List.nil_append]
    show structureOf (insertOne st p) st.nextId =
      p.samples.map (fun q => (q.name, q.accessions))
    simp only [structureOf, hsf]
    rw [← hm]
    refine List.map_congr_left ?_
    intro s hmem
    obtain ⟨h1, h2, h3⟩ := hs s hmem
    have haf : accessionsOf (insertOne st p) s.id =
        (allocSamples (st.nextId + 1) st.nextId p.samples).2.1.filter
          (fun a => a.sample_id = s.id) := by
      simp only [accessionsOf]
      rw [e3, List.filter_append]
      have hold : st.accessions.filter (fun a => a.sample_id = s.id) = [] := by
        refine List.filter_eq_nil_iff.mpr ?_
        intro a hmem'
        simp only [decide_eq_true_eq]
        have := (w3 a hmem').2
        omega
      rw [hold, List.nil_append]
    rw [haf]

theorem structureOf_stable (stA stB : RegistryState) (did : Nat)
    (extraS : List Sample) (extraA : List Accession)
    (hsam : stB.samples = stA.samples ++ extraS)
    (hacc : stB.accessions = stA.accessions ++ extraA)
    (hextS : ∀ s ∈ extraS, s.dataset_id ≠ did)
    (hextA : ∀ s ∈ samplesOf stA did, ∀ a ∈ extraA, a.sample_id ≠ s.id) :
    structureOf stB did = structureOf stA did := by
  have hsame : samplesOf stB did = samplesOf stA did := by
    simp only [samplesOf]
    rw [hsam, List.filter_append]
    have : extraS.filter (fun s => s.dataset_id = did) = [] := by
      refine List.filter_eq_nil_iff.mpr ?_
      intro s hmem
      simp only [decide_eq_true_eq]
      exact hextS s hmem
    rw [this, List.append_nil]
  simp only [structureOf, hsame]
  refine List.map_congr_left ?_
  intro s hmem
  have haeq : accessionsOf stB s.id = accessionsOf stA s.id := by
    simp only [accessionsOf]
    rw [hacc, List.filter_append]
    have : extraA.filter (fun a => a.sample_id = s.id) = [] := by
      refine List.filter_eq_nil_iff.mpr ?_
      intro a hmem'
      simp only [decide_eq_true_eq]
      exact hextA s hmem a hmem'
    rw [this, List.append_nil]
  rw [haeq]

theorem insertAll_spec (ps : List PendingDataset) : ∀ st : RegistryState, WfIds st →
    (∀ p ∈ ps, datasetConflict st p = false) →
    ps.Pairwise (fun p q => ¬(p.name = q.name ∧ p.organism_id = q.organism_id)) →
    ∃ st', insertAll st ps = .ok st' ∧
      st'.components = st.components ∧ st'.organisms = st.organisms ∧
      st.nextId ≤ st'.nextId ∧ WfIds st' ∧
      (∃ newDs, st'.datasets = st.datasets ++ newDs ∧
        newDs.map (fun d => (d.name, d.organism_id, d.release, d.retired, d.latest)) =
          ps.map (fun p => (p.name, p.organism_id, p.release, (0 : Int), true)) ∧
        (∀ d ∈ newDs, st.nextId ≤ d.id) ∧
        newDs.map (fun d => structureOf st' d.id) = ps.map PendingDataset.structure) ∧
      (∃ newSs, st'.samples = st.samples ++ newSs ∧ ∀ s ∈ newSs, st.nextId ≤ s.dataset_id) ∧
      (∃ newAs, st'.accessions = st.accessions ++ newAs ∧
        ∀ a ∈ newAs, st.nextId < a.sample_id) := by
  induction ps with
  | nil =>
    intro st hwf _ _
    exact ⟨st, rfl, rfl, rfl, Nat.le_refl _, hwf,
      ⟨[], by simp, by simp, by simp, by simp⟩, ⟨[], by simp, by simp⟩, ⟨[], by simp, by simp⟩⟩
  | cons p rest ih =>
    intro st hwf hconf hpair
    have hc : datasetConflict st p = false := hconf p (List.mem_cons_self _ _)
    obtain ⟨e_comp, e_org, e_ds, ⟨sRows, e_s, hsR⟩, ⟨aRows, e_a, haR⟩, hlt, hwf₁, hstruct⟩ :=
      insertOne_spec st p hwf
    have hconf₁ : ∀ q ∈ rest, datasetConflict (insertOne st p) q = false := by
      intro q hq
      cases hcq : datasetConflict (insertOne st p) q with
      | false => rfl
      | true =>
        exfalso
        simp only [datasetConflict, List.any_eq_true, Bool.and_eq_true, decide_eq_true_eq,
          beq_iff_eq] at hcq
        obtain ⟨d, hd, hdq⟩ := hcq
        rw [e_ds] at hd
        rcases List.mem_append.mp hd with hd | hd
        · have hcontr : datasetConflict st q = true := by
            simp only [datasetConflict, List.any_eq_true, Bool.and_eq_true, decide_eq_true_eq,
              beq_iff_eq]
            exact ⟨d, hd, hdq⟩
          rw [hconf q (List.mem_cons_of_mem _ hq)] at hcontr
          exact Bool.false_ne_true hcontr
        · have hpq : ¬(p.name = q.name ∧ p.organism_id = q.organism_id) :=
            (List.pairwise_cons.mp hpair).1 q hq
          rw [List.mem_singleton.mp hd] at hdq
          exact hpq ⟨hdq.1.1.1, hdq.1.1.2⟩
    obtain ⟨st', hrun, f_comp, f_org, f_next, hwf', ⟨newDs, f_ds, f_map, f_ids, f_str⟩,
      ⟨newSs, f_s, hsN⟩, ⟨newAs, f_a, haN⟩⟩ :=
      ih (insertOne st p) hwf₁ hconf₁ (List.pairwise_cons.mp hpair).2
    refine ⟨st', ?_, ?_, ?_, ?_, hwf', ?_, ?_, ?_⟩
    · show insertAll st (p :: rest) = .ok st'
      simp only [insertAll, hc, Bool.false_eq_true, if_false]
      exact hrun
    · rw [f_comp, e_comp]
    · rw [f_org, e_org]
    · omega
    · refine ⟨⟨st.nextId, p.name, p.release, 0, true, p.organism_id⟩ :: newDs, ?_, ?_, ?_, ?_⟩
      · rw [f_ds, e_ds, List.append_assoc]
        rfl
      · simp only [List.map_cons, f_map]
      · intro d hd
        rcases List.mem_cons.mp hd with rfl | hd
        · exact Nat.le_refl _
        · have := f_ids d hd
          omega
      · simp only [List.map_cons]
        rw [f_str]
        have hstable : structureOf st' st.nextId = structureOf (insertOne st p) st.nextId := by
          refine structureOf_stable (insertOne st p) st' st.nextId newSs newAs f_s f_a ?_ ?_
          · intro s hmem
            have := hsN s hmem
            omega
          · intro s hmem a hmem'
            have hsid : s.id < (insertOne st p).nextId := by
              have hsmem : s ∈ (insertOne st p).samples := List.mem_of_mem_filter hmem
              exact (hwf₁.2.1 s hsmem).1
            have := haN a hmem'
            omega
        rw [hstable, hstruct]
    · refine ⟨sRows ++ newSs, ?_, ?_⟩
      · rw [f_s, e_s, List.append_assoc]
      · intro s hmem
        rcases List.mem_append.mp hmem with hmem | hmem
        · exact (hsR s hmem).1 ▸ Nat.le_refl _
        · have := hsN s hmem
          omega
    · refine ⟨aRows ++ newAs, ?_, ?_⟩
      · rw [f_a, e_a, List.append_assoc]
      · intro a hmem
        rcases List.mem_append.mp hmem with hmem | hmem
        · exact (haR a hmem).2.2.1
        · have := haN a hmem
          omega

/-- C7 (corrected): `remap(A, B)` deep-copies exactly the latest datasets
of `A` that `list_datasets` can see (at least one sample with at least one
accession, organism and component rows present); invisible ones are not
copied (see the counterexample).  With well-formed ids, a resolvable
destination organism, copy names that are distinct and collide with no
existing latest dataset of the destination (otherwise the commit raises
`IntegrityError`), the copies are appended as fresh rows attached to `B`
at the given release, structurally equal to their sources, and the source
rows — including their sample lists — are left unchanged; if `A` has no
visible latest dataset the call is a no-op. -/
theorem remap_deep_copies_visible_datasets
    (st : RegistryState) (org_from org_to : String) (release : Int) (orgB : Organism)
    (hwf : WfIds st)
    (horg : get_organism st org_to = .ok orgB)
    (hnodup : ((list_datasets st none (some org_from) none none (some true)).map
      Dataset.name).Nodup)
    (hnoconf : ∀ d ∈ st.datasets, d.organism_id = orgB.id → d.latest = true →
      d.retired = 0 →
      d.name ∉ (list_datasets st none (some org_from) none none (some true)).map
        Dataset.name) :
    ∃ st', remap st org_from org_to release false = (.ok (), st') ∧
      st'.components = st.components ∧ st'.organisms = st.organisms ∧
      (∃ newDs, st'.datasets = st.datasets ++ newDs ∧
        newDs.map (fun d => (d.name, d.organism_id, d.release, d.retired, d.latest)) =
          (list_datasets st none (some org_from) none none (some true)).map
            (fun d => (d.name, orgB.id, release, (0 : Int), true)) ∧
        (∀ d ∈ newDs, st.nextId ≤ d.id) ∧
        newDs.map (fun d => structureOf st' d.id) =
          (list_datasets st none (some org_from) none none (some true)).map
            (fun d => structureOf st d.id)) ∧
      (∀ d ∈ st.datasets, structureOf st' d.id = structureOf st d.id) ∧
      ((list_datasets st none (some org_from) none none (some true)) = [] → st' = st) := by
  by_cases hemp : list_datasets st none (some org_from) none none (some true) = []
  · refine ⟨st, ?_, rfl, rfl, ⟨[], by simp, by simp [hemp], by simp, by simp [hemp]⟩,
      fun d _ => rfl, fun _ => rfl⟩
    simp only [remap, hemp, List.isEmpty_nil, if_true]
  · have hie : (list_datasets st none (some org_from) none none (some true)).isEmpty
        = false := by
      cases hv : list_datasets st none (some org_from) none none (some true) with
      | nil => exact absurd hv hemp
      | cons a l => rfl
    have hconf : ∀ p ∈ (list_datasets st none (some org_from) none none (some true)).map
        (remapCopy st orgB.id release), datasetConflict st p = false := by
      intro p hp
      obtain ⟨old, hold, rfl⟩ := List.mem_map.mp hp
      cases hcq : datasetConflict st (remapCopy st orgB.id release old) with
      | false => rfl
      | true =>
        exfalso
        simp only [datasetConflict, remapCopy, List.any_eq_true, Bool.and_eq_true,
          decide_eq_true_eq, beq_iff_eq] at hcq
        obtain ⟨d, hd, hdq⟩ := hcq
        refine hnoconf d hd hdq.1.1.2 hdq.1.2 hdq.2 ?_
        rw [hdq.1.1.1]
        exact List.mem_map_of_mem _ hold
    have hpw : ((list_datasets st none (some org_from) none none (some true)).map
        (remapCopy st orgB.id release)).Pairwise
        (fun p q => ¬(p.name = q.name ∧ p.organism_id = q.organism_id)) := by
      rw [List.pairwise_map]
      have hnd := (List.pairwise_map.mp hnodup)
      refine hnd.imp ?_
      intro a b hab hcontra
      exact hab hcontra.1
    obtain ⟨st', hrun, f_comp, f_org, f_next, hwf', ⟨newDs, f_ds, f_map, f_ids, f_str⟩,
      ⟨newSs, f_s, hsN⟩, ⟨newAs, f_a, haN⟩⟩ :=
      insertAll_spec _ st hwf hconf hpw
    refine ⟨st', ?_, f_comp, f_org, ⟨newDs, f_ds, ?_, f_ids, ?_⟩, ?_, fun h => absurd h hemp⟩
    · simp only [remap, hie, Bool.false_eq_true, if_false, horg]
      rw [hrun]
    · rw [f_map, List.map_map]
      rfl
    · rw [f_str, List.map_map]
      refine List.map_congr_left ?_
      intro old _
      simp only [Function.comp, remapCopy, PendingDataset.structure, structureOf,
        List.map_map]
      rfl
    · intro d hd
      refine structureOf_stable st st' d.id newSs newAs f_s f_a ?_ ?_
      · intro s hmem
        have h1 := hsN s hmem
        have h2 := hwf.1 d hd
        omega
      · intro s hmem a hmem'
        have h1 := haN a hmem'
        have h2 : s.id < st.nextId :=
          (hwf.2.1 s (List.mem_of_mem_filter hmem)).1
        omega

/-- Registry for the C7 witness: organism `A` owns one latest dataset with
one sample and one accession; `B` is the destination. -/
def stC7w : RegistryState :=
  ⟨[⟨0, "c"⟩], [⟨1, "A", 0⟩, ⟨2, "B", 0⟩], [⟨3, "d1", 5, 0, true, 1⟩], [⟨4, "s1", 3⟩],
   [⟨5, "SRR1", 4⟩], 6⟩

/-- Witness for C7 at a concrete registry, remapping `A` to `B` at
release 7. -/
theorem remap_deep_copies_visible_datasets_witness :
    WfIds stC7w ∧
    get_organism stC7w "B" = .ok ⟨2, "B", 0⟩ ∧
    (∃ st', remap stC7w "A" "B" 7 false = (.ok (), st') ∧
      st'.components = stC7w.components ∧ st'.organisms = stC7w.organisms ∧
      (∃ newDs, st'.datasets = stC7w.datasets ++ newDs ∧
        newDs.map (fun d => (d.name, d.organism_id, d.release, d.retired, d.latest)) =
          (list_datasets stC7w none (some "A") none none (some true)).map
            (fun d => (d.name, (2 : Nat), (7 : Int), (0 : Int), true)) ∧
        (∀ d ∈ newDs, stC7w.nextId ≤ d.id) ∧
        newDs.map (fun d => structureOf st' d.id) =
          (list_datasets stC7w none (some "A") none none (some true)).map
            (fun d => structureOf stC7w d.id)) ∧
      (∀ d ∈ stC7w.datasets, structureOf st' d.id = structureOf stC7w d.id) ∧
      ((list_datasets stC7w none (some "A") none none (some true)) = [] → st' = stC7w)) :=
  ⟨by decide, by decide,
   remap_deep_copies_visible_datasets stC7w "A" "B" 7 ⟨2, "B", 0⟩ (by decide) (by decide)
     (by decide) (by decide)⟩

/-! ### Lemmas about the organism bulk import (idempotence) -/

theorem alookup_append (k : String) (d e : List (String × Nat)) :
    alookup k (d ++ e) =
      match alookup k d with
      | some v => some v
      | none => alookup k e := by
  induction d with
  | nil => simp [alookup]
  | cons p rest ih =>
    simp only [List.cons_append, alookup]
    split
    · rfl
    · exact ih

theorem alookup_none_iff (k : String) (d : List (String × Nat)) :
    alookup k d = none ↔ ∀ p ∈ d, p.1 ≠ k := by
  induction d with
  | nil => simp [alookup]
  | cons p rest ih =>
    simp only [alookup, List.mem_cons]
    split
    · rename_i hpk
      constructor
      · intro h
        exact absurd h (by simp)
      · intro h
        exact absurd hpk (h p (Or.inl rfl))
    · rename_i hpk
      rw [ih]
      constructor
      · intro h q hq
        rcases hq with rfl | hq
        · exact hpk
        · exact h q hq
      · intro h q hq
        exact h q (Or.inr hq)

theorem alookup_isSome_iff (k : String) (d : List (String × Nat)) :
    (alookup k d).isSome = true ↔ ∃ p ∈ d, p.1 = k := by
  induction d with
  | nil => simp [alookup]
  | cons p rest ih =>
    simp only [alookup, List.mem_cons]
    split
    · rename_i hpk
      simp only [Option.isSome_some, true_iff]
      exact ⟨p, Or.inl rfl, hpk⟩
    · rename_i hpk
      rw [ih]
      constructor
      · rintro ⟨q, hq, hqk⟩
        exact ⟨q, Or.inr hq, hqk⟩
      · rintro ⟨q, hq, hqk⟩
        rcases hq with rfl | hq
        · exact absurd hqk hpk
        · exact ⟨q, hq, hqk⟩

theorem alookup_mem {k : String} {d : List (String × Nat)} {v : Nat}
    (h : alookup k d = some v) : (k, v) ∈ d := by
  induction d with
  | nil => simp [alookup] at h
  | cons p rest ih =>
    simp only [alookup] at h
    split at h
    · rename_i hpk
      rcases Option.some.inj h with rfl
      have : p = (k, p.2) := by
        rw [← hpk]
      rw [this] at *
      exact List.mem_cons_self _ _
    · exact List.mem_cons_of_mem _ (ih h)

theorem dictInsert_fresh (d : List (String × Nat)) (k : String) (v : Nat)
    (h : alookup k d = none) : dictInsert d k v = d ++ [(k, v)] := by
  have hany : d.any (fun p => p.1 = k) = false := by
    simp only [List.any_eq_false, decide_eq_true_eq]
    intro p hp
    exact (alookup_none_iff k d).mp h p hp
  simp only [dictInsert, hany, Bool.false_eq_true, if_false]

theorem orderedIns_perm {α : Type} (le : α → α → Bool) (a : α) (l : List α) :
    (orderedIns le a l).Perm (a :: l) := by
  induction l with
  | nil => simp [orderedIns]
  | cons b t ih =>
    simp only [orderedIns]
    split
    · exact List.Perm.refl _
    · exact (ih.cons b).trans (List.Perm.swap a b t)

theorem sortBy_perm {α : Type} (le : α → α → Bool) (l : List α) :
    (sortBy le l).Perm l := by
  induction l with
  | nil => simp [sortBy]
  | cons a t ih => exact (orderedIns_perm le a (sortBy le t)).trans (ih.cons a)

theorem foldl_dictInsert_names (l : List Component) : ∀ acc : List (String × Nat),
    (∀ c ∈ l, alookup c.name acc = none) →
    (l.map Component.name).Nodup →
    l.foldl (fun d c => dictInsert d c.name c.id) acc =
      acc ++ l.map (fun c => (c.name, c.id)) := by
  induction l with
  | nil => intro acc _ _; simp
  | cons c rest ih =>
    intro acc hfresh hnd
    rw [List.map_cons] at hnd
    obtain ⟨hnotin, hndr⟩ := List.nodup_cons.mp hnd
    have hfresh' : ∀ x ∈ rest, alookup x.name (acc ++ [(c.name, c.id)]) = none := by
      intro x hx
      rw [alookup_append, hfresh x (List.mem_cons_of_mem _ hx)]
      have hxc : x.name ≠ c.name := by
        intro heq
        exact hnotin (heq ▸ List.mem_map_of_mem Component.name hx)
      simp only [alookup, if_neg (Ne.symm hxc)]
    simp only [List.foldl_cons]
    rw [dictInsert_fresh acc c.name c.id (hfresh c (List.mem_cons_self _ _))]
    rw [ih (acc ++ [(c.name, c.id)]) hfresh' hndr]
    simp

theorem alookup_isSome_append_left {k : String} {d e : List (String × Nat)}
    (h : (alookup k d).isSome = true) : (alookup k (d ++ e)).isSome = true := by
  rw [alookup_append]
  rcases hd : alookup k d with _ | v
  · rw [hd] at h
    simp at h
  · simp

theorem alookup_append_none {k : String} {d e : List (String × Nat)}
    (h : alookup k (d ++ e) = none) : alookup k d = none ∧ alookup k e = none := by
  rw [alookup_append] at h
  rcases hd : alookup k d with _ | v
  · rw [hd] at h
    exact ⟨rfl, h⟩
  · rw [hd] at h
    simp at h

theorem componentsDictOf_eq (st : RegistryState)
    (hnd : (st.components.map Component.name).Nodup) :
    componentsDictOf st = (list_components st).map (fun c => (c.name, c.id)) := by
  have hperm : (list_components st).Perm st.components := sortBy_perm _ _
  have hnd' : ((list_components st).map Component.name).Nodup :=
    ((hperm.map Component.name).nodup_iff).mpr hnd
  rw [componentsDictOf,
    foldl_dictInsert_names (list_components st) [] (fun c _ => rfl) hnd']
  simp

theorem mem_abbrevSetOf (st : RegistryState)
    (hnd : (st.components.map Component.name).Nodup) (x : String) :
    x ∈ abbrevSetOf st ↔
      ∃ c ∈ st.components, ∃ o ∈ st.organisms, o.component_id = c.id ∧ o.abbr = x := by
  simp only [abbrevSetOf, componentsDictOf_eq st hnd, List.mem_flatMap, List.mem_map,
    List.mem_filter, decide_eq_true_eq]
  constructor
  · rintro ⟨e, ⟨c, hc, rfl⟩, o, ⟨ho, hco⟩, rfl⟩
    exact ⟨c, (mem_sortBy _ _ _).mp hc, o, ho, hco, rfl⟩
  · rintro ⟨c, hc, o, ho, hco, rfl⟩
    exact ⟨(c.name, c.id), ⟨c, (mem_sortBy _ _ _).mpr hc, rfl⟩, o, ⟨ho, hco⟩, rfl⟩

theorem insertOrganisms_spec (pendings : List (String × Nat)) :
    ∀ (st st' : RegistryState), insertOrganisms st pendings = .ok st' →
    st'.components = st.components ∧ st'.datasets = st.datasets ∧
    st'.samples = st.samples ∧ st'.accessions = st.accessions ∧
    ∃ newOrgs, st'.organisms = st.organisms ++ newOrgs ∧
      newOrgs.map (fun o => (o.abbr, o.component_id)) = pendings := by
  induction pendings with
  | nil =>
    intro st st' h
    simp only [insertOrganisms] at h
    rcases Except.ok.inj h with rfl
    exact ⟨rfl, rfl, rfl, rfl, [], by simp, rfl⟩
  | cons p rest ih =>
    intro st st' h
    simp only [insertOrganisms] at h
    split at h
    · exact absurd h (by simp)
    · obtain ⟨hc, hd, hs, ha, newOrgs, horgs, hmap⟩ := ih _ _ h
      refine ⟨hc, hd, hs, ha, ⟨st.nextId, p.1, p.2⟩ :: newOrgs, ?_, ?_⟩
      · rw [horgs]
        simp
      · simp [hmap]

theorem scanLines_noop (lines : List String) :
    ∀ (st : RegistryState) (components : List (String × Nat)) (abbrevs : List String)
      (acc : List (String × String)),
    (∀ line ∈ lines, parseLine line = .ok none ∨
      ∃ cn ab, parseLine line = .ok (some (cn, ab)) ∧
        (alookup cn components).isSome = true ∧ ab ∈ abbrevs) →
    scanLines st components abbrevs acc lines = (.ok (components, abbrevs, acc), st) := by
  induction lines with
  | nil => intro st components abbrevs acc _; rfl
  | cons line rest ih =>
    intro st components abbrevs acc hsat
    rcases hsat line (List.mem_cons_self _ _) with hnone | ⟨cn, ab, hsome, hcn, hab⟩
    · simp only [scanLines, hnone]
      exact ih st components abbrevs acc
        (fun l hl => hsat l (List.mem_cons_of_mem _ hl))
    · have hany : abbrevs.any (fun x => x = ab) = true := by
        simp only [List.any_eq_true, decide_eq_true_eq]
        exact ⟨ab, hab, rfl⟩
      simp only [scanLines, hsome, hcn, if_true, hany]
      exact ih st components abbrevs acc
        (fun l hl => hsat l (List.mem_cons_of_mem _ hl))

theorem scanLines_spec (lines : List String) :
    ∀ (st : RegistryState) (components : List (String × Nat)) (abbrevs : List String)
      (acc : List (String × String)) (c' : List (String × Nat)) (a' : List String)
      (acc' : List (String × String)) (st' : RegistryState),
    scanLines st components abbrevs acc lines = (.ok (c', a', acc'), st') →
    (∀ k v, alookup k components = some v →
      ∃ row ∈ st.components, row.name = k ∧ row.id = v) →
    st'.organisms = st.organisms ∧ st'.datasets = st.datasets ∧
    st'.samples = st.samples ∧ st'.accessions = st.accessions ∧
    (∃ newComps, st'.components = st.components ++ newComps ∧
      c' = components ++ newComps.map (fun c => (c.name, c.id)) ∧
      (∀ c ∈ newComps, alookup c.name components = none) ∧
      (newComps.map Component.name).Nodup) ∧
    (∀ k v, alookup k c' = some v → ∃ row ∈ st'.components, row.name = k ∧ row.id = v) ∧
    (∃ newAcc, acc' = acc ++ newAcc ∧ a' = abbrevs ++ newAcc.map Prod.snd ∧
      (∀ pr ∈ newAcc, (alookup pr.1 c').isSome = true)) ∧
    (∀ line ∈ lines, parseLine line = .ok none ∨
      ∃ cn ab, parseLine line = .ok (some (cn, ab)) ∧
        (alookup cn c').isSome = true ∧ ab ∈ a') := by
  induction lines with
  | nil =>
    intro st components abbrevs acc c' a' acc' st' h hsound
    simp only [scanLines, Prod.mk.injEq] at h
    obtain ⟨hok, hst⟩ := h
    have h3 := Except.ok.inj hok
    rw [Prod.mk.injEq, Prod.mk.injEq] at h3
    obtain ⟨hc, ha2, hacc⟩ := h3
    subst hc
    subst ha2
    subst hacc
    subst hst
    exact ⟨rfl, rfl, rfl, rfl, ⟨[], by simp, by simp, by simp, by simp⟩, hsound,
      ⟨[], by simp, by simp, by simp⟩, by simp⟩
  | cons line rest ih =>
    intro st components abbrevs acc c' a' acc' st' h hsound
    rcases hp : parseLine line with e | o
    · simp only [scanLines, hp, Prod.mk.injEq] at h
      exact absurd h.1 (by simp)
    · rcases o with _ | ⟨cn, ab⟩
      · simp only [scanLines, hp] at h
        obtain ⟨o1, o2, o3, o4, hcomps, hsound', hnacc, hS5⟩ :=
          ih st components abbrevs acc c' a' acc' st' h hsound
        exact ⟨o1, o2, o3, o4, hcomps, hsound', hnacc,
          fun l hl => (List.mem_cons.mp hl).elim (fun hle => hle ▸ Or.inl hp)
            (fun hlr => hS5 l hlr)⟩
      · simp only [scanLines, hp] at h
        by_cases hk : (alookup cn components).isSome = true
        · rw [if_pos hk] at h
          by_cases hab : abbrevs.any (fun x => x = ab) = true
          · rw [if_pos hab] at h
            obtain ⟨o1, o2, o3, o4, hcomps, hsound', ⟨newAcc, f1, f2, f3⟩, hS5⟩ :=
              ih st components abbrevs acc c' a' acc' st' h hsound
            obtain ⟨newComps, e1, e2, e3, e4⟩ := hcomps
            have habmem : ab ∈ abbrevs := by
              rcases List.any_eq_true.mp hab with ⟨x, hx, hxe⟩
              rcases decide_eq_true_eq.mp hxe with rfl
              exact hx
            refine ⟨o1, o2, o3, o4, ⟨newComps, e1, e2, e3, e4⟩, hsound',
              ⟨newAcc, f1, f2, f3⟩, ?_⟩
            intro l hl
            rcases List.mem_cons.mp hl with rfl | hlr
            · refine Or.inr ⟨cn, ab, hp, ?_, ?_⟩
              · rw [e2]
                exact alookup_isSome_append_left hk
              · rw [f2]
                exact List.mem_append_left _ habmem
            · exact hS5 l hlr
          · rw [if_neg hab] at h
            obtain ⟨o1, o2, o3, o4, hcomps, hsound', ⟨newAcc, f1, f2, f3⟩, hS5⟩ :=
              ih st components (abbrevs ++ [ab]) (acc ++ [(cn, ab)]) c' a' acc' st' h hsound
            obtain ⟨newComps, e1, e2, e3, e4⟩ := hcomps
            have hcnSome : (alookup cn c').isSome = true := by
              rw [e2]
              exact alookup_isSome_append_left hk
            refine ⟨o1, o2, o3, o4, ⟨newComps, e1, e2, e3, e4⟩, hsound',
              ⟨(cn, ab) :: newAcc, by rw [f1]; simp, by rw [f2]; simp, ?_⟩, ?_⟩
            · intro pr hpr
              rcases List.mem_cons.mp hpr with rfl | hpr
              · exact hcnSome
              · exact f3 pr hpr
            · intro l hl
              rcases List.mem_cons.mp hl with rfl | hlr
              · refine Or.inr ⟨cn, ab, hp, hcnSome, ?_⟩
                rw [f2]
                simp
              · exact hS5 l hlr
        · have hnone : alookup cn components = none := by
            rcases hcn : alookup cn components with _ | v
            · rfl
            · exact absurd (by rw [hcn]; rfl) hk
          rw [if_neg hk] at h
          split at h
          · rename_i heq
            simp only [Prod.mk.injEq] at h
            exact absurd h.1 (by simp)
          · rename_i comp st₁ heq
            simp only [add_component] at heq
            split at heq
            · simp only [Prod.mk.injEq] at heq
              exact absurd heq.1 (by simp)
            · rename_i hdup
              simp only [Prod.mk.injEq] at heq
              obtain ⟨hcomp, hst₁⟩ := heq
              rcases Except.ok.inj hcomp with rfl
              rcases hst₁ with rfl
              simp only [dictInsert_fresh components cn _ hnone] at h
              have hsound₁ : ∀ k v, alookup k (components ++ [(cn, st.nextId)]) = some v →
                  ∃ row ∈ st.components ++ [(⟨st.nextId, cn⟩ : Component)],
                    Component.name row = k ∧ Component.id row = v := by
                intro k v hkv
                rw [alookup_append] at hkv
                rcases hkd : alookup k components with _ | w
                · rw [hkd] at hkv
                  simp only [alookup] at hkv
                  split at hkv
                  · rename_i hcnk
                    rcases Option.some.inj hkv with rfl
                    exact ⟨⟨st.nextId, cn⟩, List.mem_append_right _ (by simp), hcnk, rfl⟩
                  · exact absurd hkv (by simp)
                · rw [hkd] at hkv
                  rcases Option.some.inj hkv with rfl
                  obtain ⟨row, hrow, h1, h2⟩ := hsound k w hkd
                  exact ⟨row, List.mem_append_left _ hrow, h1, h2⟩
              by_cases hab : abbrevs.any (fun x => x = ab) = true
              · rw [if_pos hab] at h
                obtain ⟨o1, o2, o3, o4, hcomps, hsound', ⟨newAcc, f1, f2, f3⟩, hS5⟩ :=
                  ih _ (components ++ [(cn, st.nextId)]) abbrevs acc c' a' acc' st' h hsound₁
                obtain ⟨newComps, e1, e2, e3, e4⟩ := hcomps
                have habmem : ab ∈ abbrevs := by
                  rcases List.any_eq_true.mp hab with ⟨x, hx, hxe⟩
                  rcases decide_eq_true_eq.mp hxe with rfl
                  exact hx
                have hcnSome : (alookup cn c').isSome = true := by
                  rw [e2]
                  refine alookup_isSome_append_left ?_
                  rw [alookup_append, hnone]
                  simp [alookup]
                have he3' : ∀ c ∈ (⟨st.nextId, cn⟩ : Component) :: newComps,
                    alookup c.name components = none := by
                  intro c hc
                  rcases List.mem_cons.mp hc with rfl | hc
                  · exact hnone
                  · exact (alookup_append_none (e3 c hc)).1
                have he4' : (((⟨st.nextId, cn⟩ : Component) :: newComps).map
                    Component.name).Nodup := by
                  rw [List.map_cons, List.nodup_cons]
                  refine ⟨?_, e4⟩
                  intro hmem
                  obtain ⟨c, hc, hcname⟩ := List.mem_map.mp hmem
                  have hc2 := (alookup_append_none (e3 c hc)).2
                  simp only [alookup] at hc2
                  rw [hcname] at hc2
                  simp at hc2
                refine ⟨o1, o2, o3, o4,
                  ⟨⟨st.nextId, cn⟩ :: newComps, by rw [e1]; simp, by rw [e2]; simp,
                    he3', he4'⟩,
                  hsound', ⟨newAcc, f1, f2, f3⟩, ?_⟩
                intro l hl
                rcases List.mem_cons.mp hl with rfl | hlr
                · refine Or.inr ⟨cn, ab, hp, hcnSome, ?_⟩
                  rw [f2]
                  exact List.mem_append_left _ habmem
                · exact hS5 l hlr
              · rw [if_neg hab] at h
                obtain ⟨o1, o2, o3, o4, hcomps, hsound', ⟨newAcc, f1, f2, f3⟩, hS5⟩ :=
                  ih _ (components ++ [(cn, st.nextId)]) (abbrevs ++ [ab])
                    (acc ++ [(cn, ab)]) c' a' acc' st' h hsound₁
                obtain ⟨newComps, e1, e2, e3, e4⟩ := hcomps
                have hcnSome : (alookup cn c').isSome = true := by
                  rw [e2]
                  refine alookup_isSome_append_left ?_
                  rw [alookup_append, hnone]
                  simp [alookup]
                have he3' : ∀ c ∈ (⟨st.nextId, cn⟩ : Component) :: newComps,
                    alookup c.name components = none := by
                  intro c hc
                  rcases List.mem_cons.mp hc with rfl | hc
                  · exact hnone
                  · exact (alookup_append_none (e3 c hc)).1
                have he4' : (((⟨st.nextId, cn⟩ : Component) :: newComps).map
                    Component.name).Nodup := by
                  rw [List.map_cons, List.nodup_cons]
                  refine ⟨?_, e4⟩
                  intro hmem
                  obtain ⟨c, hc, hcname⟩ := List.mem_map.mp hmem
                  have hc2 := (alookup_append_none (e3 c hc)).2
                  simp only [alookup] at hc2
                  rw [hcname] at hc2
                  simp at hc2
                refine ⟨o1, o2, o3, o4,
                  ⟨⟨st.nextId, cn⟩ :: newComps, by rw [e1]; simp, by rw [e2]; simp,
                    he3', he4'⟩,
                  hsound', ⟨(cn, ab) :: newAcc, by rw [f1]; simp, by rw [f2]; simp, ?_⟩, ?_⟩
                · intro pr hpr
                  rcases List.mem_cons.mp hpr with rfl | hpr
                  · exact hcnSome
                  · exact f3 pr hpr
                · intro l hl
                  rcases List.mem_cons.mp hl with rfl | hlr
                  · refine Or.inr ⟨cn, ab, hp, hcnSome, ?_⟩
                    rw [f2]
                    simp
                  · exact hS5 l hlr

/-- C6 (confirmed): `load_organisms` is idempotent.  If a first run on a
tab-file succeeds (returning some count and a new state), a second run of
the same file returns 0 and leaves the registry unchanged — hence the
component and organism counts are unchanged; every line whose organism
abbreviation is already registered is skipped without error and without
creating a duplicate.  The `Nodup` hypothesis is the unique constraint on
`component.name` that every database state satisfies. -/
theorem load_organisms_idempotent (st : RegistryState) (lines : List String)
    (n : Nat) (st₁ : RegistryState)
    (hnd : (st.components.map Component.name).Nodup)
    (h : load_organisms st lines = (.ok n, st₁)) :
    load_organisms st₁ lines = (.ok 0, st₁) := by
  have hsound₀ : ∀ k v, alookup k (componentsDictOf st) = some v →
      ∃ row ∈ st.components, row.name = k ∧ row.id = v := by
    intro k v hkv
    rw [componentsDictOf_eq st hnd] at hkv
    have hmem := alookup_mem hkv
    obtain ⟨c, hc, hpair⟩ := List.mem_map.mp hmem
    rw [Prod.mk.injEq] at hpair
    exact ⟨c, (mem_sortBy _ _ _).mp hc, hpair.1, hpair.2⟩
  rw [load_organisms] at h
  rcases hscan : scanLines st (componentsDictOf st) (abbrevSetOf st) [] lines with ⟨res, stA⟩
  rw [hscan] at h
  rcases res with e | ⟨c', a', acc'⟩
  · simp only [Prod.mk.injEq] at h
    exact absurd h.1 (by simp)
  · simp only [] at h
    rcases hins : insertOrganisms stA (acc'.map (fun p => (p.2, (alookup p.1 c').getD 0)))
      with e2 | st₂
    · rw [hins] at h
      simp only [Prod.mk.injEq] at h
      exact absurd h.1 (by simp)
    · rw [hins] at h
      simp only [Prod.mk.injEq] at h
      obtain ⟨-, hstate⟩ := h
      subst hstate
      obtain ⟨o1, o2, o3, o4, ⟨newComps, e1, e2, e3, e4⟩, hsound', ⟨newAcc, f1, f2, f3⟩,
        hS5⟩ := scanLines_spec lines st (componentsDictOf st) (abbrevSetOf st) [] c' a'
          acc' stA hscan hsound₀
      obtain ⟨g1, g2, g3, g4, newOrgs, g5, g6⟩ := insertOrganisms_spec _ _ _ hins
      have F1 : st₂.components = st.components ++ newComps := by rw [g1, e1]
      have Forg : st₂.organisms = st.organisms ++ newOrgs := by rw [g5, o1]
      have hnd₁ : (st₂.components.map Component.name).Nodup := by
        rw [F1, List.map_append, List.nodup_append]
        refine ⟨hnd, e4, ?_⟩
        intro x hx hx'
        obtain ⟨row, hrow, hrown⟩ := List.mem_map.mp hx
        obtain ⟨c, hc, hcn⟩ := List.mem_map.mp hx'
        have hcnone := e3 c hc
        rw [componentsDictOf_eq st hnd, alookup_none_iff] at hcnone
        refine hcnone (row.name, row.id) ?_ ?_
        · exact List.mem_map_of_mem _ ((mem_sortBy _ _ _).mpr hrow)
        · rw [hrown, hcn]
      have hdictSome : ∀ cn, (alookup cn c').isSome = true →
          (alookup cn (componentsDictOf st₂)).isSome = true := by
        intro cn hsome
        rcases hv : alookup cn c' with _ | v
        · rw [hv] at hsome
          simp at hsome
        · obtain ⟨row, hrow, hrn, hri⟩ := hsound' cn v hv
          rw [componentsDictOf_eq st₂ hnd₁, alookup_isSome_iff]
          refine ⟨(row.name, row.id), ?_, hrn⟩
          refine List.mem_map_of_mem _ ((mem_sortBy _ _ _).mpr ?_)
          rw [← g1] at hrow
          exact hrow
      have habrev : ∀ ab, ab ∈ a' → ab ∈ abbrevSetOf st₂ := by
        intro ab hab
        rw [f2] at hab
        rcases List.mem_append.mp hab with hab | hab
        · obtain ⟨c, hc, o, ho, hco, habbr⟩ := (mem_abbrevSetOf st hnd ab).mp hab
          refine (mem_abbrevSetOf st₂ hnd₁ ab).mpr
            ⟨c, ?_, o, ?_, hco, habbr⟩
          · rw [F1]
            exact List.mem_append_left _ hc
          · rw [Forg]
            exact List.mem_append_left _ ho
        · obtain ⟨pr, hpr, hprs⟩ := List.mem_map.mp hab
          have hgmem : (pr.2, (alookup pr.1 c').getD 0) ∈
              acc'.map (fun p => (p.2, (alookup p.1 c').getD 0)) := by
            refine List.mem_map_of_mem _ ?_
            rw [f1]
            simpa using hpr
          rw [← g6] at hgmem
          obtain ⟨o, ho, hoeq⟩ := List.mem_map.mp hgmem
          rw [Prod.mk.injEq] at hoeq
          rcases hv : alookup pr.1 c' with _ | v
          · have := f3 pr (by simpa [f1] using hpr)
            rw [hv] at this
            simp at this
          · obtain ⟨row, hrow, hrn, hri⟩ := hsound' pr.1 v hv
            refine (mem_abbrevSetOf st₂ hnd₁ ab).mpr ⟨row, ?_, o, ?_, ?_, ?_⟩
            · rw [← g1] at hrow
              exact hrow
            · rw [Forg]
              exact List.mem_append_right _ ho
            · rw [hoeq.2, hv, hri]
              rfl
            · rw [hoeq.1, hprs]
      have hsat : ∀ l ∈ lines, parseLine l = .ok none ∨
          ∃ cn ab, parseLine l = .ok (some (cn, ab)) ∧
            (alookup cn (componentsDictOf st₂)).isSome = true ∧ ab ∈ abbrevSetOf st₂ := by
        intro l hl
        rcases hS5 l hl with hnone | ⟨cn, ab, hsome, hcn, hab⟩
        · exact Or.inl hnone
        · exact Or.inr ⟨cn, ab, hsome, hdictSome cn hcn, habrev ab hab⟩
      have hnoop := scanLines_noop lines st₂ (componentsDictOf st₂) (abbrevSetOf st₂) [] hsat
      rw [load_organisms, hnoop]
      simp [insertOrganisms]

/-- Empty registry for the C6 witness. -/
def stC6 : RegistryState := ⟨[], [], [], [], [], 0⟩

/-- A 3-organism tab-file over two components, with a blank line. -/
def linesC6 : List String := ["TestDB\tspeciesA", "TestDB\tspeciesB", "", "DB2\tspeciesC"]

/-- Witness for C6: the second run of the same file returns 0 and leaves
the state of the first run unchanged. -/
theorem load_organisms_idempotent_witness :
    (stC6.components.map Component.name).Nodup ∧
    (load_organisms stC6 linesC6).fst = Except.ok 3 ∧
    load_organisms (load_organisms stC6 linesC6).snd linesC6 =
      (Except.ok 0, (load_organisms stC6 linesC6).snd) :=
  ⟨by decide, by decide,
   load_organisms_idempotent stC6 linesC6 3 (load_organisms stC6 linesC6).snd
     (by decide) (by decide)⟩
